import Mathlib

/-!
Shallow embedding of `src/skills/duckdb-analytics/scripts/query_duckdb.py`:
a one-shot DuckDB query gateway (secrets loading and compilation, source
registration, query classification and wrapping, result shaping with a
byte-budget shrink loop).  Strings are modelled as `List Char` so that the
escaping and scanning functions can be reasoned about by structural
induction.  Machine integers from the Python code are modelled as `Int`
(Python integers are unbounded, so no wrap-around modelling is needed).
-/

namespace DuckQ

/-- Strings are modelled as lists of characters. -/
abbrev Str := List Char

/-- Coerce a Lean string literal into the `List Char` representation. -/
def chars (s : String) : Str := s.toList

/-- `escape_identifier` from the source: wrap in double quotes, doubling any
embedded double quote. -/
def escape_identifier (name : Str) : Str :=
  '"' :: (name.flatMap fun c => if c = '"' then ['"', '"'] else [c]) ++ ['"']

/-- `escape_string` from the source: wrap in single quotes, doubling any
embedded single quote. -/
def escape_string (s : Str) : Str :=
  '\'' :: (s.flatMap fun c => if c = '\'' then ['\'', '\''] else [c]) ++ ['\'']

/-- `", ".join(parts)` from the source. -/
def joinComma : List Str → Str
  | [] => []
  | [p] => p
  | p :: ps => p ++ chars ", " ++ joinComma ps

/-- States of a small SQL lexer that tracks single-quoted literals and
double-quoted identifiers; used to state the "no unescaped quote" property. -/
inductive ScanSt where
  | out
  | inS
  | inD
deriving DecidableEq, Repr

/-- Scan a SQL text, tracking quoted regions; returns `true` when every
single-quoted literal and double-quoted identifier that is opened is also
closed (a doubled quote reads as close-then-reopen, which is equivalent to
the SQL escaped-quote rule). -/
def scanQ : ScanSt → Str → Bool
  | .out, [] => true
  | .out, c :: r => if c = '\'' then scanQ .inS r else if c = '"' then scanQ .inD r else scanQ .out r
  | .inS, [] => false
  | .inS, c :: r => if c = '\'' then scanQ .out r else scanQ .inS r
  | .inD, [] => false
  | .inD, c :: r => if c = '"' then scanQ .out r else scanQ .inD r

/-- A text is scan-neutral when prepending it to any tail leaves the lexer in
the outside-of-quotes state exactly when the tail alone would. -/
def Neutral (p : Str) : Prop := ∀ rest, scanQ .out (p ++ rest) = scanQ .out rest

/-- `PostgresSecret`: required host/user/password/database, defaulted
port (5432) and schema ("public"); defaults are materialized values here
because the embedding represents already-validated credentials. -/
structure PostgresSecret where
  host : Str
  port : Int
  user : Str
  password : Str
  database : Str
  schema_ : Str
deriving DecidableEq, Repr

/-- `MySQLSecret`: required host/user/password/database, defaulted port 3306. -/
structure MySQLSecret where
  host : Str
  port : Int
  user : Str
  password : Str
  database : Str
deriving DecidableEq, Repr

/-- `S3Secret`: required key_id/secret/region, optional scope/endpoint,
defaulted use_ssl=true. -/
structure S3Secret where
  key_id : Str
  secret : Str
  region : Str
  scope : Option Str
  endpoint : Option Str
  use_ssl : Bool
deriving DecidableEq, Repr

/-- `GCSSecret`: required key_id/secret, optional region/scope. -/
structure GCSSecret where
  key_id : Str
  secret : Str
  region : Option Str
  scope : Option Str
deriving DecidableEq, Repr

/-- `AzureSecret`: all fields optional. -/
structure AzureSecret where
  account_name : Option Str
  account_key : Option Str
  connection_string : Option Str
  tenant_id : Option Str
  client_id : Option Str
  client_secret : Option Str
  client_certificate_path : Option Str
  chain : Option Str
  provider : Option Str
deriving DecidableEq, Repr

/-- `R2Secret`: required key_id/secret/account_id, optional region/scope. -/
structure R2Secret where
  key_id : Str
  secret : Str
  account_id : Str
  region : Option Str
  scope : Option Str
deriving DecidableEq, Repr

/-- `HTTPSecret`: all fields optional; extra_http_headers is a string map. -/
structure HTTPSecret where
  bearer_token : Option Str
  extra_http_headers : Option (List (Str × Str))
  http_proxy : Option Str
  http_proxy_username : Option Str
  http_proxy_password : Option Str
deriving DecidableEq, Repr

/-- `IcebergSecret`: all fields optional. -/
structure IcebergSecret where
  token : Option Str
  client_id : Option Str
  client_secret : Option Str
  oauth2_server_uri : Option Str
  oauth2_scope : Option Str
deriving DecidableEq, Repr

/-- `DuckLakeSecret`: required metadata_path/data_path, optional
metadata_parameters string map. -/
structure DuckLakeSecret where
  metadata_path : Str
  data_path : Str
  metadata_parameters : Option (List (Str × Str))
deriving DecidableEq, Repr

/-- `HuggingFaceSecret`: optional token and provider. -/
structure HuggingFaceSecret where
  token : Option Str
  provider : Option Str
deriving DecidableEq, Repr

/-- The `AnySecret` union over the ten credential variants. -/
inductive AnySecret where
  | postgres (s : PostgresSecret)
  | mysql (s : MySQLSecret)
  | s3 (s : S3Secret)
  | gcs (s : GCSSecret)
  | azure (s : AzureSecret)
  | r2 (s : R2Secret)
  | http (s : HTTPSecret)
  | iceberg (s : IcebergSecret)
  | ducklake (s : DuckLakeSecret)
  | huggingface (s : HuggingFaceSecret)
deriving DecidableEq, Repr

/-- Python truthiness filter on an optional string: `if secret.x:` skips both
`None` and the empty string. -/
def optTruthy : Option Str → Option Str
  | some s => if s = [] then none else some s
  | none => none

/-- Python truthiness filter on an optional string map: `if secret.x:` skips
both `None` and an empty dict. -/
def optTruthyMap : Option (List (Str × Str)) → Option (List (Str × Str))
  | some [] => none
  | some l => some l
  | none => none

/-- Append an optional clause (the `if secret.x: parts.append(...)` pattern). -/
def optClause (kw : Str) : Option Str → List Str
  | some v => [kw ++ escape_string v]
  | none => []

/-- Render an integer the way Python string interpolation does. -/
def intChars (n : Int) : Str := chars (toString n)

/-- The libpq-style connection string built for `PostgresSecret`. -/
def pgConnStr (s : PostgresSecret) : Str :=
  chars "host=" ++ s.host ++ chars " port=" ++ intChars s.port ++
  chars " user=" ++ s.user ++ chars " password=" ++ s.password ++
  chars " dbname=" ++ s.database

/-- The connection string built for `MySQLSecret`. -/
def myConnStr (s : MySQLSecret) : Str :=
  chars "host=" ++ s.host ++ chars " port=" ++ intChars s.port ++
  chars " user=" ++ s.user ++ chars " password=" ++ s.password ++
  chars " database=" ++ s.database

/-- `", ".join` of `key: value` map entries, each side escaped, as used for
the MAP clauses of the http and ducklake variants. -/
def mapEntries (m : List (Str × Str)) : Str :=
  joinComma (m.map fun kv => escape_string kv.1 ++ chars ": " ++ escape_string kv.2)

/-- The list of clause texts joined by `", "` inside the parentheses of
`CREATE OR REPLACE SECRET`, per variant, in source order.  Note that the
`provider` clauses of the azure and huggingface variants interpolate the raw
field value without `escape_string`, exactly as the source does. -/
def secretParts : AnySecret → List Str
  | .postgres s =>
      [chars "TYPE postgres", chars "CONNECTION_STRING " ++ escape_string (pgConnStr s)]
  | .mysql s =>
      [chars "TYPE mysql", chars "CONNECTION_STRING " ++ escape_string (myConnStr s)]
  | .s3 s =>
      [chars "TYPE s3",
       chars "KEY_ID " ++ escape_string s.key_id,
       chars "SECRET " ++ escape_string s.secret,
       chars "REGION " ++ escape_string s.region] ++
      optClause (chars "ENDPOINT ") (optTruthy s.endpoint) ++
      (if s.use_ssl then [] else [chars "USE_SSL false"]) ++
      optClause (chars "SCOPE ") (optTruthy s.scope)
  | .gcs s =>
      [chars "TYPE gcs",
       chars "KEY_ID " ++ escape_string s.key_id,
       chars "SECRET " ++ escape_string s.secret] ++
      optClause (chars "REGION ") (optTruthy s.region) ++
      optClause (chars "SCOPE ") (optTruthy s.scope)
  | .azure s =>
      [chars "TYPE azure"] ++
      (match optTruthy s.provider with
       | some p => [chars "PROVIDER " ++ p]
       | none => []) ++
      optClause (chars "ACCOUNT_NAME ") (optTruthy s.account_name) ++
      optClause (chars "ACCOUNT_KEY ") (optTruthy s.account_key) ++
      optClause (chars "CONNECTION_STRING ") (optTruthy s.connection_string) ++
      optClause (chars "TENANT_ID ") (optTruthy s.tenant_id) ++
      optClause (chars "CLIENT_ID ") (optTruthy s.client_id) ++
      optClause (chars "CLIENT_SECRET ") (optTruthy s.client_secret) ++
      optClause (chars "CLIENT_CERTIFICATE_PATH ") (optTruthy s.client_certificate_path) ++
      optClause (chars "CHAIN ") (optTruthy s.chain)
  | .r2 s =>
      [chars "TYPE r2",
       chars "KEY_ID " ++ escape_string s.key_id,
       chars "SECRET " ++ escape_string s.secret,
       chars "ACCOUNT_ID " ++ escape_string s.account_id] ++
      optClause (chars "REGION ") (optTruthy s.region) ++
      optClause (chars "SCOPE ") (optTruthy s.scope)
  | .http s =>
      [chars "TYPE http"] ++
      optClause (chars "BEARER_TOKEN ") (optTruthy s.bearer_token) ++
      (match optTruthyMap s.extra_http_headers with
       | some m => [chars "EXTRA_HTTP_HEADERS MAP \x7b" ++ mapEntries m ++ chars "\x7d"]
       | none => []) ++
      optClause (chars "HTTP_PROXY ") (optTruthy s.http_proxy) ++
      optClause (chars "HTTP_PROXY_USERNAME ") (optTruthy s.http_proxy_username) ++
      optClause (chars "HTTP_PROXY_PASSWORD ") (optTruthy s.http_proxy_password)
  | .iceberg s =>
      [chars "TYPE iceberg"] ++
      optClause (chars "TOKEN ") (optTruthy s.token) ++
      optClause (chars "CLIENT_ID ") (optTruthy s.client_id) ++
      optClause (chars "CLIENT_SECRET ") (optTruthy s.client_secret) ++
      optClause (chars "OAUTH2_SERVER_URI ") (optTruthy s.oauth2_server_uri) ++
      optClause (chars "OAUTH2_SCOPE ") (optTruthy s.oauth2_scope)
  | .ducklake s =>
      [chars "TYPE ducklake",
       chars "METADATA_PATH " ++ escape_string s.metadata_path,
       chars "DATA_PATH " ++ escape_string s.data_path] ++
      (match optTruthyMap s.metadata_parameters with
       | some m => [chars "METADATA_PARAMETERS MAP \x7b" ++ mapEntries m ++ chars "\x7d"]
       | none => [])
  | .huggingface s =>
      [chars "TYPE huggingface"] ++
      (match optTruthy s.provider with
       | some p => [chars "PROVIDER " ++ p]
       | none => []) ++
      optClause (chars "TOKEN ") (optTruthy s.token)

/-- `create_secret_sql` from the source: the full
`CREATE OR REPLACE SECRET <name> (clause, ...)` text. -/
def create_secret_sql (secret_name : Str) (s : AnySecret) : Str :=
  chars "CREATE OR REPLACE SECRET " ++ escape_identifier secret_name ++
  chars " (" ++ joinComma (secretParts s) ++ chars ")"

/-- The `TYPE <kind>` clause of a variant. -/
def typeClause : AnySecret → Str
  | .postgres _ => chars "TYPE postgres"
  | .mysql _ => chars "TYPE mysql"
  | .s3 _ => chars "TYPE s3"
  | .gcs _ => chars "TYPE gcs"
  | .azure _ => chars "TYPE azure"
  | .r2 _ => chars "TYPE r2"
  | .http _ => chars "TYPE http"
  | .iceberg _ => chars "TYPE iceberg"
  | .ducklake _ => chars "TYPE ducklake"
  | .huggingface _ => chars "TYPE huggingface"

/-- Quote-freedom of the raw-interpolated `provider` fields (azure and
huggingface); vacuously true for every other variant. -/
def providerQuoteFree : AnySecret → Bool
  | .azure s =>
      (match s.provider with
       | some p => p.all fun c => c ≠ '\'' && c ≠ '"'
       | none => true)
  | .huggingface s =>
      (match s.provider with
       | some p => p.all fun c => c ≠ '\'' && c ≠ '"'
       | none => true)
  | _ => true

/-- A text containing no quote characters at all. -/
def PlainB (p : Str) : Bool := p.all fun c => c ≠ '\'' && c ≠ '"'

theorem neutral_nil : Neutral [] := fun _ => rfl

theorem neutral_append {a b : Str} (ha : Neutral a) (hb : Neutral b) :
    Neutral (a ++ b) := by
  intro rest
  rw [List.append_assoc, ha, hb]

theorem neutral_of_plainB {p : Str} (h : PlainB p = true) : Neutral p := by
  induction p with
  | nil => exact neutral_nil
  | cons c cs ih =>
      simp only [PlainB, List.all_cons, Bool.and_eq_true, decide_eq_true_eq] at h
      intro rest
      simp only [List.cons_append, scanQ, if_neg h.1.1, if_neg h.1.2]
      exact ih (by simpa [PlainB] using h.2) rest

theorem esc_inS (s : Str) (rest : Str) :
    scanQ .inS ((s.flatMap fun c => if c = '\'' then ['\'', '\''] else [c]) ++ '\'' :: rest)
      = scanQ .out rest := by
  induction s with
  | nil => simp [scanQ]
  | cons c cs ih =>
      by_cases hc : c = '\''
      · subst hc
        simp only [List.flatMap_cons, if_pos rfl, List.append_assoc, List.cons_append,
          List.nil_append, scanQ, if_pos rfl]
        exact ih
      · simp only [List.flatMap_cons, if_neg hc, List.append_assoc, List.cons_append,
          List.nil_append, scanQ, if_neg hc]
        exact ih

theorem scanQ_out_quote (r : Str) : scanQ .out ('\'' :: r) = scanQ .inS r := by
  simp [scanQ]

theorem scanQ_out_dquote (r : Str) : scanQ .out ('"' :: r) = scanQ .inD r := by
  simp [scanQ]

theorem neutral_escape_string (s : Str) : Neutral (escape_string s) := by
  intro rest
  have hrw : escape_string s ++ rest
      = '\'' :: ((s.flatMap fun c => if c = '\'' then ['\'', '\''] else [c]) ++ '\'' :: rest) := by
    simp [escape_string]
  rw [hrw, scanQ_out_quote, esc_inS]

theorem esc_inD (s : Str) (rest : Str) :
    scanQ .inD ((s.flatMap fun c => if c = '"' then ['"', '"'] else [c]) ++ '"' :: rest)
      = scanQ .out rest := by
  induction s with
  | nil => simp [scanQ]
  | cons c cs ih =>
      by_cases hc : c = '"'
      · subst hc
        simp only [List.flatMap_cons, if_pos rfl, List.append_assoc, List.cons_append,
          List.nil_append, scanQ, if_pos rfl]
        exact ih
      · simp only [List.flatMap_cons, if_neg hc, List.append_assoc, List.cons_append,
          List.nil_append, scanQ, if_neg hc]
        exact ih

theorem neutral_escape_identifier (s : Str) : Neutral (escape_identifier s) := by
  intro rest
  have hrw : escape_identifier s ++ rest
      = '"' :: ((s.flatMap fun c => if c = '"' then ['"', '"'] else [c]) ++ '"' :: rest) := by
    simp [escape_identifier]
  rw [hrw, scanQ_out_dquote, esc_inD]

theorem neutral_joinComma {ps : List Str} (h : ∀ p ∈ ps, Neutral p) :
    Neutral (joinComma ps) := by
  induction ps with
  | nil => exact neutral_nil
  | cons p ps ih =>
      cases ps with
      | nil => simpa [joinComma] using h p (by simp)
      | cons q qs =>
          show Neutral (p ++ chars ", " ++ joinComma (q :: qs))
          exact neutral_append
            (neutral_append (h p (by simp)) (neutral_of_plainB (by decide)))
            (ih fun r hr => h r (by simp [hr]))

theorem neutral_clause {kw : Str} (hkw : PlainB kw = true) (v : Str) :
    Neutral (kw ++ escape_string v) :=
  neutral_append (neutral_of_plainB hkw) (neutral_escape_string v)

theorem neutral_optClause {kw : Str} (hkw : PlainB kw = true) (o : Option Str) :
    ∀ p ∈ optClause kw o, Neutral p := by
  cases o with
  | none => intro p hp; simp [optClause] at hp
  | some v =>
      intro p hp
      simp only [optClause, List.mem_singleton] at hp
      subst hp
      exact neutral_clause hkw v

theorem neutral_mapEntries (m : List (Str × Str)) : Neutral (mapEntries m) := by
  refine neutral_joinComma ?_
  intro p hp
  simp only [mapEntries, List.mem_map] at hp
  obtain ⟨kv, _, rfl⟩ := hp
  exact neutral_append
    (neutral_append (neutral_escape_string kv.1) (neutral_of_plainB (by decide)))
    (neutral_escape_string kv.2)

/-- Every clause of every variant is scan-neutral provided the raw
`provider` fields (if present) are quote-free. -/
theorem neutral_secretParts (s : AnySecret) (hp : providerQuoteFree s = true) :
    ∀ p ∈ secretParts s, Neutral p := by
  cases s with
  | postgres s =>
      intro p hp'
      simp only [secretParts, List.mem_cons, List.mem_singleton, List.not_mem_nil,
        or_false] at hp'
      rcases hp' with rfl | rfl
      · exact neutral_of_plainB (by decide)
      · exact neutral_clause (by decide) _
  | mysql s =>
      intro p hp'
      simp only [secretParts, List.mem_cons, List.mem_singleton, List.not_mem_nil,
        or_false] at hp'
      rcases hp' with rfl | rfl
      · exact neutral_of_plainB (by decide)
      · exact neutral_clause (by decide) _
  | s3 s =>
      intro p hp'
      simp only [secretParts, List.mem_append, List.mem_cons, List.mem_singleton,
        List.not_mem_nil, or_false] at hp'
      rcases hp' with (((rfl | rfl | rfl | rfl) | h) | h) | h
      · exact neutral_of_plainB (by decide)
      · exact neutral_clause (by decide) _
      · exact neutral_clause (by decide) _
      · exact neutral_clause (by decide) _
      · exact neutral_optClause (by decide) _ _ h
      · rcases hssl : s.use_ssl with _ | _
        · simp only [hssl, if_false, Bool.false_eq_true, ite_false, List.mem_singleton] at h
          subst h
          exact neutral_of_plainB (by decide)
        · simp [hssl] at h
      · exact neutral_optClause (by decide) _ _ h
  | gcs s =>
      intro p hp'
      simp only [secretParts, List.mem_append, List.mem_cons, List.mem_singleton,
        List.not_mem_nil, or_false] at hp'
      rcases hp' with ((rfl | rfl | rfl) | h) | h
      · exact neutral_of_plainB (by decide)
      · exact neutral_clause (by decide) _
      · exact neutral_clause (by decide) _
      · exact neutral_optClause (by decide) _ _ h
      · exact neutral_optClause (by decide) _ _ h
  | azure s =>
      intro p hp'
      simp only [secretParts, List.mem_append, List.mem_cons, List.mem_singleton,
        List.not_mem_nil, or_false] at hp'
      rcases hp' with ((((((((rfl | h) | h) | h) | h) | h) | h) | h) | h) | h
      · exact neutral_of_plainB (by decide)
      · -- the raw PROVIDER clause: quote-free by hypothesis
        rcases hprov : optTruthy s.provider with _ | pv
        · simp [hprov] at h
        · simp only [hprov, List.mem_singleton] at h
          subst h
          refine neutral_of_plainB ?_
          have hpv : pv.all (fun c => c ≠ '\'' && c ≠ '"') = true := by
            rcases hsp : s.provider with _ | p0
            · simp [optTruthy, hsp] at hprov
            · simp only [optTruthy, hsp] at hprov
              by_cases hz : p0 = [] <;> simp [hz] at hprov
              subst hprov
              simpa only [providerQuoteFree, hsp] using hp
          simp only [PlainB, List.all_append, Bool.and_eq_true]
          exact ⟨by decide, hpv⟩
      all_goals exact neutral_optClause (by decide) _ _ h
  | r2 s =>
      intro p hp'
      simp only [secretParts, List.mem_append, List.mem_cons, List.mem_singleton,
        List.not_mem_nil, or_false] at hp'
      rcases hp' with ((rfl | rfl | rfl | rfl) | h) | h
      · exact neutral_of_plainB (by decide)
      · exact neutral_clause (by decide) _
      · exact neutral_clause (by decide) _
      · exact neutral_clause (by decide) _
      · exact neutral_optClause (by decide) _ _ h
      · exact neutral_optClause (by decide) _ _ h
  | http s =>
      intro p hp'
      simp only [secretParts, List.mem_append, List.mem_cons, List.mem_singleton,
        List.not_mem_nil, or_false] at hp'
      rcases hp' with ((((rfl | h) | h) | h) | h) | h
      · exact neutral_of_plainB (by decide)
      · exact neutral_optClause (by decide) _ _ h
      · rcases hm : optTruthyMap s.extra_http_headers with _ | m
        · simp [hm] at h
        · simp only [hm, List.mem_singleton] at h
          subst h
          exact neutral_append
            (neutral_append (neutral_of_plainB (by decide)) (neutral_mapEntries m))
            (neutral_of_plainB (by decide))
      all_goals exact neutral_optClause (by decide) _ _ h
  | iceberg s =>
      intro p hp'
      simp only [secretParts, List.mem_append, List.mem_cons, List.mem_singleton,
        List.not_mem_nil, or_false] at hp'
      rcases hp' with ((((rfl | h) | h) | h) | h) | h
      · exact neutral_of_plainB (by decide)
      all_goals exact neutral_optClause (by decide) _ _ h
  | ducklake s =>
      intro p hp'
      simp only [secretParts, List.mem_append, List.mem_cons, List.mem_singleton,
        List.not_mem_nil, or_false] at hp'
      rcases hp' with (rfl | rfl | rfl) | h
      · exact neutral_of_plainB (by decide)
      · exact neutral_clause (by decide) _
      · exact neutral_clause (by decide) _
      · rcases hm : optTruthyMap s.metadata_parameters with _ | m
        · simp [hm] at h
        · simp only [hm, List.mem_singleton] at h
          subst h
          exact neutral_append
            (neutral_append (neutral_of_plainB (by decide)) (neutral_mapEntries m))
            (neutral_of_plainB (by decide))
  | huggingface s =>
      intro p hp'
      simp only [secretParts, List.mem_append, List.mem_cons, List.mem_singleton,
        List.not_mem_nil, or_false] at hp'
      rcases hp' with (rfl | h) | h
      · exact neutral_of_plainB (by decide)
      · rcases hprov : optTruthy s.provider with _ | pv
        · simp [hprov] at h
        · simp only [hprov, List.mem_singleton] at h
          subst h
          refine neutral_of_plainB ?_
          have hpv : pv.all (fun c => c ≠ '\'' && c ≠ '"') = true := by
            rcases hsp : s.provider with _ | p0
            · simp [optTruthy, hsp] at hprov
            · simp only [optTruthy, hsp] at hprov
              by_cases hz : p0 = [] <;> simp [hz] at hprov
              subst hprov
              simpa only [providerQuoteFree, hsp] using hp
          simp only [PlainB, List.all_append, Bool.and_eq_true]
          exact ⟨by decide, hpv⟩
      · exact neutral_optClause (by decide) _ _ h

/-- In every variant, the clause list starts with the `TYPE` clause. -/
theorem secretParts_head (s : AnySecret) :
    ∃ rest, secretParts s = typeClause s :: rest := by
  cases s <;> exact ⟨_, rfl⟩

theorem joinComma_cons (p : Str) (ps : List Str) :
    ∃ t, joinComma (p :: ps) = p ++ t := by
  cases ps with
  | nil => exact ⟨[], by simp [joinComma]⟩
  | cons q qs => exact ⟨chars ", " ++ joinComma (q :: qs), by simp [joinComma]⟩

/-- Decidable contiguous-segment test on character lists. -/
def containsSeg (s seg : Str) : Bool :=
  (List.range (s.length + 1)).any fun i => (s.drop i).take seg.length = seg

theorem containsSeg_iff (s seg : Str) :
    containsSeg s seg = true ↔ ∃ pre post, s = pre ++ seg ++ post := by
  constructor
  · intro h
    simp only [containsSeg, List.any_eq_true, List.mem_range, decide_eq_true_eq] at h
    obtain ⟨i, _, htake⟩ := h
    refine ⟨s.take i, s.drop (i + seg.length), ?_⟩
    have h1 : s = s.take i ++ s.drop i := (List.take_append_drop i s).symm
    have h2 : s.drop i = seg ++ (s.drop i).drop seg.length := by
      conv_lhs => rw [← List.take_append_drop seg.length (s.drop i)]
      rw [htake]
    rw [List.drop_drop] at h2
    rw [List.append_assoc]
    rw [h2] at h1
    simpa [Nat.add_comm] using h1
  · rintro ⟨pre, post, rfl⟩
    simp only [containsSeg, List.any_eq_true, List.mem_range, decide_eq_true_eq]
    refine ⟨pre.length, ?_, ?_⟩
    · simp only [List.length_append]
      omega
    · rw [List.append_assoc, List.drop_left, List.take_left]

/-- C2 (amended): for every credential name and structurally valid variant
whose raw-interpolated provider field (azure, huggingface) is quote-free, the
compiled SQL starts with the escaped identifier and the variant's TYPE clause,
and every quoted region in it is properly closed (no unescaped quote). -/
theorem c2_create_secret_sql_escaped (name : Str) (s : AnySecret)
    (hp : providerQuoteFree s = true) :
    (∃ post, create_secret_sql name s =
      chars "CREATE OR REPLACE SECRET " ++ escape_identifier name ++
      chars " (" ++ (typeClause s ++ post)) ∧
    scanQ .out (create_secret_sql name s) = true := by
  constructor
  · obtain ⟨rest, hparts⟩ := secretParts_head s
    obtain ⟨t, hjoin⟩ := joinComma_cons (typeClause s) rest
    refine ⟨t ++ chars ")", ?_⟩
    rw [create_secret_sql, hparts, hjoin]
    simp [List.append_assoc]
  · have hn : Neutral (create_secret_sql name s) := by
      rw [create_secret_sql]
      refine neutral_append (neutral_append (neutral_append (neutral_append
        (neutral_of_plainB (by decide)) (neutral_escape_identifier name))
        (neutral_of_plainB (by decide)))
        (neutral_joinComma (neutral_secretParts s hp))) (neutral_of_plainB (by decide))
    simpa using hn []

/-- A concrete s3 credential whose literal fields contain both quote kinds. -/
def exS3 : AnySecret :=
  .s3 ⟨chars "AK" ++ '\'' :: chars "ID", chars "se" ++ '"' :: chars "cr",
       chars "eu-1", some (chars "s3://bucket/path"), none, true⟩

/-- Witness for C2 (amended) at a concrete credential with embedded quotes. -/
theorem c2_create_secret_sql_escaped_witness :
    (∃ post, create_secret_sql (chars "db") exS3 =
      chars "CREATE OR REPLACE SECRET " ++ escape_identifier (chars "db") ++
      chars " (" ++ (typeClause exS3 ++ post)) ∧
    scanQ .out (create_secret_sql (chars "db") exS3) = true :=
  c2_create_secret_sql_escaped (chars "db") exS3 (by decide)

/-- The raw provider value used in the C2 counterexample (contains a quote). -/
def hfProviderRaw : Str := chars "a" ++ '\'' :: chars "b"

/-- A structurally valid huggingface credential with a quoted provider. -/
def hfLeakSecret : AnySecret := .huggingface ⟨none, some hfProviderRaw⟩

/-- C2 counterexample: for the huggingface variant the `provider` field is
interpolated verbatim: the escaped form of the value does not occur in the
output, the raw unescaped value does (directly after `PROVIDER `), and the
output contains an unescaped single quote (the quote scanner rejects it).
This refutes the claim that every literal field value is escaped uniformly
across all variants and fields. -/
theorem c2_counterexample :
    containsSeg (create_secret_sql (chars "hf") hfLeakSecret)
      (escape_string hfProviderRaw) = false ∧
    containsSeg (create_secret_sql (chars "hf") hfLeakSecret)
      (chars "PROVIDER " ++ hfProviderRaw) = true ∧
    scanQ .out (create_secret_sql (chars "hf") hfLeakSecret) = false := by
  refine ⟨by decide, by decide, by decide⟩

/-- Python regex `\s` on the ASCII range. -/
def isSpaceChar (c : Char) : Bool :=
  c = ' ' || c = '\t' || c = '\n' || c = '\r' || c = '\x0b' || c = '\x0c'

/-- Python regex `\w` on the ASCII range. -/
def isWordChar (c : Char) : Bool := c.isAlpha || c.isDigit || c = '_'

/-- ASCII lower-casing as used by case-insensitive regex matching. -/
def lowerChar (c : Char) : Char :=
  if c.isUpper then Char.ofNat (c.toNat + 32) else c

/-- Anchored case-insensitive keyword match followed by a `\b` word boundary:
the body of each `UTILITY_PATTERNS` regex after its `^\s*` prefix.  The
keyword is given in lowercase. -/
def matchKeyword : Str → Str → Bool
  | [], [] => true
  | [], c :: _ => !isWordChar c
  | _ :: _, [] => false
  | k :: ks, c :: cs => lowerChar c = k && matchKeyword ks cs

/-- The keyword bodies of `UTILITY_PATTERNS`, in source order. -/
def utilityKeywords : List Str :=
  [chars "describe", chars "summarize", chars "show", chars "pragma", chars "explain"]

/-- `is_utility_statement` from the source: `any(pattern.match(query))` where
each pattern is `^\s*KEYWORD\b` with IGNORECASE. -/
def is_utility_statement (q : Str) : Bool :=
  utilityKeywords.any fun kw => matchKeyword kw (q.dropWhile isSpaceChar)

/-- The wrapped form of an ordinary query:
`SELECT * FROM ({query}) AS q LIMIT {max_rows + 1}`. -/
def wrappedQuery (q : Str) (maxRows : Int) : Str :=
  chars "SELECT * FROM (" ++ q ++ chars ") AS q LIMIT " ++ intChars (maxRows + 1)

/-- The SQL text actually sent to the engine (main, lines 710-716). -/
def executedSql (q : Str) (maxRows : Int) : Str :=
  if is_utility_statement q then q else wrappedQuery q maxRows

/-- Modelled from the spec: the first non-whitespace token of the query,
lower-cased — the spec says classification is decided solely by this token. -/
def firstTokenLower (q : Str) : Str :=
  ((q.dropWhile isSpaceChar).takeWhile isWordChar).map lowerChar

/-- Modelled from the spec: classify by membership of the first token in the
fixed utility-prefix set. -/
def classifySpec (q : Str) : Bool := decide (firstTokenLower q ∈ utilityKeywords)

theorem lowerChar_word {k c : Char} (hk : isWordChar k = true)
    (h : lowerChar c = k) : isWordChar c = true := by
  unfold lowerChar at h
  by_cases hu : c.isUpper
  · simp [isWordChar, Char.isAlpha, hu]
  · simp only [hu, if_false, Bool.false_eq_true, ite_false] at h
    rwa [h]

theorem matchKeyword_iff (kw : Str) (hkw : kw.all isWordChar = true) :
    ∀ rest, matchKeyword kw rest = true ↔
      (rest.takeWhile isWordChar).map lowerChar = kw := by
  induction kw with
  | nil =>
      intro rest
      cases rest with
      | nil => simp [matchKeyword]
      | cons c cs =>
          by_cases hw : isWordChar c
          · simp [matchKeyword, hw, List.takeWhile_cons]
          · simp [matchKeyword, hw, List.takeWhile_cons]
  | cons k ks ih =>
      intro rest
      simp only [List.all_cons, Bool.and_eq_true] at hkw
      cases rest with
      | nil => simp [matchKeyword]
      | cons c cs =>
          by_cases hw : isWordChar c
          · simp only [matchKeyword, Bool.and_eq_true, decide_eq_true_eq,
              List.takeWhile_cons, hw, if_true, List.map_cons, List.cons_eq_cons]
            rw [ih hkw.2 cs]
          · simp only [matchKeyword, Bool.and_eq_true, decide_eq_true_eq,
              List.takeWhile_cons, hw, Bool.false_eq_true, if_false, List.map_nil]
            constructor
            · rintro ⟨hc, -⟩
              exact absurd (lowerChar_word hkw.1 hc) (by simpa using hw)
            · intro h
              exact absurd h.symm (List.cons_ne_nil k ks)

/-- C5: classification is decided solely by the first non-whitespace token
(case-insensitive membership in the fixed utility set), utility statements
are executed verbatim, and every other query is rewritten to exactly
`SELECT * FROM ( query ) AS q LIMIT max_rows + 1`. -/
theorem c5_classification (q : Str) (maxRows : Int) :
    is_utility_statement q = classifySpec q ∧
    executedSql q maxRows =
      (if classifySpec q then q
       else chars "SELECT * FROM (" ++ q ++ chars ") AS q LIMIT " ++ intChars (maxRows + 1)) := by
  have h1 : is_utility_statement q = classifySpec q := by
    have hiff : is_utility_statement q = true ↔ classifySpec q = true := by
      simp only [is_utility_statement, classifySpec, List.any_eq_true,
        decide_eq_true_eq, firstTokenLower]
      constructor
      · rintro ⟨kw, hmem, hmatch⟩
        simp only [utilityKeywords, List.mem_cons, List.mem_singleton,
          List.not_mem_nil, or_false] at hmem
        rcases hmem with rfl | rfl | rfl | rfl | rfl <;>
          · rw [matchKeyword_iff _ (by decide)] at hmatch
            rw [hmatch]
            simp [utilityKeywords]
      · intro hmem
        simp only [utilityKeywords, List.mem_cons, List.mem_singleton,
          List.not_mem_nil, or_false] at hmem
        rcases hmem with h | h | h | h | h <;>
          exact ⟨_, by simp [utilityKeywords], (matchKeyword_iff _ (by decide) _).mpr h⟩
    cases hu : is_utility_statement q <;> cases hc : classifySpec q <;> simp_all
  refine ⟨h1, ?_⟩
  rw [executedSql, wrappedQuery, h1]

/-- Parsed YAML/JSON values.  Numeric scalars are modelled as integers
(Python integers are unbounded; floats play no role in the claims). -/
inductive YVal where
  | str (s : Str)
  | int (n : Int)
  | bool (b : Bool)
  | null
  | arr (xs : List YVal)
  | obj (kvs : List (Str × YVal))

/-- Python dict lookup on an association list (first match). -/
def alookup : List (Str × YVal) → Str → Option YVal
  | [], _ => none
  | kv :: rest, k => if kv.1 = k then some kv.2 else alookup rest k

/-- Python `key in dict`. -/
def hasKeyY (d : List (Str × YVal)) (k : Str) : Bool := (alookup d k).isSome

/-- Python truthiness of a parsed value. -/
def yTruthy : YVal → Bool
  | .str s => !s.isEmpty
  | .int n => decide (n ≠ 0)
  | .bool b => b
  | .null => false
  | .arr l => !l.isEmpty
  | .obj l => !l.isEmpty

/-- Python `{**a, **b}`: the entries of `a` in order (with `b`'s value where
`b` also binds the key) followed by the entries of `b` whose keys are new. -/
def mergeDicts (a b : List (Str × YVal)) : List (Str × YVal) :=
  (a.map fun kv =>
    (kv.1,
      match alookup b kv.1 with
      | some v => v
      | none => kv.2)) ++
  b.filter fun kv => !hasKeyY a kv.1

theorem alookup_append (xs ys : List (Str × YVal)) (k : Str) :
    alookup (xs ++ ys) k = (alookup xs k).orElse fun _ => alookup ys k := by
  induction xs with
  | nil => simp [alookup, Option.orElse]
  | cons kv rest ih =>
      by_cases hk : kv.1 = k
      · simp [alookup, hk, Option.orElse]
      · simp [alookup, hk, ih]

theorem alookup_mapValues (a : List (Str × YVal)) (h : Str → YVal → YVal) (k : Str) :
    alookup (a.map fun kv => (kv.1, h kv.1 kv.2)) k = (alookup a k).map (h k) := by
  induction a with
  | nil => simp [alookup]
  | cons kv rest ih =>
      by_cases hk : kv.1 = k
      · subst hk; simp [alookup]
      · simp [alookup, hk, ih]

theorem alookup_filter_keep (b : List (Str × YVal)) (p : Str × YVal → Bool) (k : Str)
    (hp : ∀ v, p (k, v) = true) :
    alookup (b.filter p) k = alookup b k := by
  induction b with
  | nil => simp
  | cons kv rest ih =>
      by_cases hk : kv.1 = k
      · have : p kv = true := by
          have := hp kv.2
          rwa [← hk] at this
        simp [List.filter_cons, this, alookup, hk]
      · by_cases hpv : p kv = true
        · simp [List.filter_cons, hpv, alookup, hk, ih]
        · simp only [List.filter_cons, Bool.not_eq_true] at hpv ⊢
          rw [hpv]
          simpa [alookup, hk] using ih

/-- The value-level content of the merge: the second dict (the source
descriptor) wins on every key collision; the first (the credential dump)
provides defaults. -/
theorem alookup_mergeDicts (a b : List (Str × YVal)) (k : Str) :
    alookup (mergeDicts a b) k = (alookup b k).orElse fun _ => alookup a k := by
  rw [mergeDicts, alookup_append]
  rw [alookup_mapValues a (fun key v =>
    match alookup b key with
    | some w => w
    | none => v) k]
  cases ha : alookup a k with
  | some v =>
      cases hb : alookup b k with
      | some w => simp [Option.orElse, hb]
      | none => simp [Option.orElse, hb]
  | none =>
      have hfilter : alookup (b.filter fun kv => !hasKeyY a kv.1) k = alookup b k := by
        refine alookup_filter_keep b _ k ?_
        intro v
        simp [hasKeyY, ha]
      rw [hfilter]
      cases hb : alookup b k <;> simp [Option.orElse]

/-- An optional string field of a `model_dump(exclude_none=True)` result. -/
def optEntry (k : Str) : Option Str → List (Str × YVal)
  | some v => [(k, .str v)]
  | none => []

/-- An optional string-map field of a `model_dump(exclude_none=True)` result. -/
def optEntryMap (k : Str) : Option (List (Str × Str)) → List (Str × YVal)
  | some m => [(k, .obj (m.map fun kv => (kv.1, .str kv.2)))]
  | none => []

/-- `secret.model_dump(by_alias=True, exclude_none=True)`: the credential's
fields in declaration order, dropping absent optionals, with the `schema`
alias for the postgres schema field. -/
def modelDump : AnySecret → List (Str × YVal)
  | .postgres s =>
      [(chars "type", .str (chars "postgres")), (chars "host", .str s.host),
       (chars "port", .int s.port), (chars "user", .str s.user),
       (chars "password", .str s.password), (chars "database", .str s.database),
       (chars "schema", .str s.schema_)]
  | .mysql s =>
      [(chars "type", .str (chars "mysql")), (chars "host", .str s.host),
       (chars "port", .int s.port), (chars "user", .str s.user),
       (chars "password", .str s.password), (chars "database", .str s.database)]
  | .s3 s =>
      [(chars "type", .str (chars "s3")), (chars "key_id", .str s.key_id),
       (chars "secret", .str s.secret), (chars "region", .str s.region)] ++
      optEntry (chars "scope") s.scope ++ optEntry (chars "endpoint") s.endpoint ++
      [(chars "use_ssl", .bool s.use_ssl)]
  | .gcs s =>
      [(chars "type", .str (chars "gcs")), (chars "key_id", .str s.key_id),
       (chars "secret", .str s.secret)] ++
      optEntry (chars "region") s.region ++ optEntry (chars "scope") s.scope
  | .azure s =>
      [(chars "type", .str (chars "azure"))] ++
      optEntry (chars "account_name") s.account_name ++
      optEntry (chars "account_key") s.account_key ++
      optEntry (chars "connection_string") s.connection_string ++
      optEntry (chars "tenant_id") s.tenant_id ++
      optEntry (chars "client_id") s.client_id ++
      optEntry (chars "client_secret") s.client_secret ++
      optEntry (chars "client_certificate_path") s.client_certificate_path ++
      optEntry (chars "chain") s.chain ++
      optEntry (chars "provider") s.provider
  | .r2 s =>
      [(chars "type", .str (chars "r2")), (chars "key_id", .str s.key_id),
       (chars "secret", .str s.secret), (chars "account_id", .str s.account_id)] ++
      optEntry (chars "region") s.region ++ optEntry (chars "scope") s.scope
  | .http s =>
      [(chars "type", .str (chars "http"))] ++
      optEntry (chars "bearer_token") s.bearer_token ++
      optEntryMap (chars "extra_http_headers") s.extra_http_headers ++
      optEntry (chars "http_proxy") s.http_proxy ++
      optEntry (chars "http_proxy_username") s.http_proxy_username ++
      optEntry (chars "http_proxy_password") s.http_proxy_password
  | .iceberg s =>
      [(chars "type", .str (chars "iceberg"))] ++
      optEntry (chars "token") s.token ++
      optEntry (chars "client_id") s.client_id ++
      optEntry (chars "client_secret") s.client_secret ++
      optEntry (chars "oauth2_server_uri") s.oauth2_server_uri ++
      optEntry (chars "oauth2_scope") s.oauth2_scope
  | .ducklake s =>
      [(chars "type", .str (chars "ducklake")),
       (chars "metadata_path", .str s.metadata_path),
       (chars "data_path", .str s.data_path)] ++
      optEntryMap (chars "metadata_parameters") s.metadata_parameters
  | .huggingface s =>
      [(chars "type", .str (chars "huggingface"))] ++
      optEntry (chars "token") s.token ++
      optEntry (chars "provider") s.provider

/-- Lookup in the named credential store. -/
def alookupS : List (Str × AnySecret) → Str → Option AnySecret
  | [], _ => none
  | kv :: rest, k => if kv.1 = k then some kv.2 else alookupS rest k

/-- The credential-resolution section of `load_source` (lines 507-530): read
the `secret` reference, fail closed when it cannot be resolved, and otherwise
return `{**secret_dict, **src}`. -/
def resolveSourceDict (src : List (Str × YVal))
    (secrets : Option (List (Str × AnySecret))) :
    Except Str (List (Str × YVal)) :=
  let secretName := (alookup src (chars "secret")).getD .null
  if yTruthy secretName then
    match secrets with
    | none => .error (chars "source references a secret but no secrets file was provided")
    | some store =>
        match secretName with
        | .str n =>
            match alookupS store n with
            | none => .error (chars "Secret not found in secrets file")
            | some sec => .ok (mergeDicts (modelDump sec) src)
        | _ => .error (chars "Secret not found in secrets file")
  else .ok src

/-- C8: when a source descriptor references an existing credential, the
resolution returns a new merged dict in which the credential's dumped fields
serve as defaults and every key also present on the descriptor takes the
descriptor's value.  (The embedding is a pure function: neither input is
mutated, the result is a fresh list.) -/
theorem c8_secret_merge (src : List (Str × YVal)) (store : List (Str × AnySecret))
    (n : Str) (sec : AnySecret) (k : Str)
    (hs : alookup src (chars "secret") = some (.str n))
    (hne : n ≠ [])
    (hfound : alookupS store n = some sec) :
    resolveSourceDict src (some store) = .ok (mergeDicts (modelDump sec) src) ∧
    alookup (mergeDicts (modelDump sec) src) k =
      ((alookup src k).orElse fun _ => alookup (modelDump sec) k) := by
  constructor
  · rw [resolveSourceDict]
    simp only [hs, Option.getD_some]
    rw [if_pos (by simp [yTruthy, hne])]
    simp [hfound]
  · exact alookup_mergeDicts (modelDump sec) src k

/-- Witness for C8: a postgres credential merged under a descriptor that
overrides the port; the descriptor's port wins, the credential's host is the
default. -/
theorem c8_secret_merge_witness :
    (resolveSourceDict
        [(chars "type", .str (chars "postgres")), (chars "alias", .str (chars "db")),
         (chars "secret", .str (chars "pg")), (chars "port", .int 6000),
         (chars "table", .str (chars "users"))]
        (some [(chars "pg", .postgres ⟨chars "h", 5432, chars "u", chars "p", chars "d", chars "public"⟩)]) =
      .ok (mergeDicts
        (modelDump (.postgres ⟨chars "h", 5432, chars "u", chars "p", chars "d", chars "public"⟩))
        [(chars "type", .str (chars "postgres")), (chars "alias", .str (chars "db")),
         (chars "secret", .str (chars "pg")), (chars "port", .int 6000),
         (chars "table", .str (chars "users"))])) ∧
    alookup (mergeDicts
        (modelDump (.postgres ⟨chars "h", 5432, chars "u", chars "p", chars "d", chars "public"⟩))
        [(chars "type", .str (chars "postgres")), (chars "alias", .str (chars "db")),
         (chars "secret", .str (chars "pg")), (chars "port", .int 6000),
         (chars "table", .str (chars "users"))]) (chars "port") =
      ((alookup
        [(chars "type", .str (chars "postgres")), (chars "alias", .str (chars "db")),
         (chars "secret", .str (chars "pg")), (chars "port", .int 6000),
         (chars "table", .str (chars "users"))] (chars "port")).orElse fun _ =>
        alookup (modelDump (.postgres ⟨chars "h", 5432, chars "u", chars "p", chars "d", chars "public"⟩))
          (chars "port")) :=
  c8_secret_merge _ _ (chars "pg") _ (chars "port") (by rfl) (by decide) (by rfl)

/-- Environment lookup (`os.environ.get`). -/
def envLookup : List (Str × Str) → Str → Option Str
  | [], _ => none
  | kv :: rest, k => if kv.1 = k then some kv.2 else envLookup rest k

/-- Scanner underlying `findall`: the second argument is `some acc` while
inside a candidate `$\x7b...` placeholder whose body so far is `acc`. An
empty body (`$\x7b\x7d`) or a missing closing brace is not a match, matching
the regex `[^\x7d]+` which requires a non-empty body. -/
def findPHAux : Str → Option Str → List Str
  | [], _ => []
  | c :: rest, some acc =>
      if c = '}' then
        (if acc = [] then findPHAux rest none else acc :: findPHAux rest none)
      else findPHAux rest (some (acc ++ [c]))
  | '$' :: '{' :: rest, none => findPHAux rest (some [])
  | _ :: rest, none => findPHAux rest none

/-- `ENV_VAR_PATTERN.findall`: all `$\x7b...\x7d` placeholder names, scanned
left to right, non-overlapping; a placeholder body is the non-empty run of
characters up to the first closing brace. -/
def findPH (s : Str) : List Str := findPHAux s none

/-- Drop `pat` from the front of a list when it is literally there. -/
def dropPat : Str → Str → Option Str
  | [], s => some s
  | _ :: _, [] => none
  | p :: ps, c :: cs => if p = c then dropPat ps cs else none

theorem dropPat_length {pat s r : Str} (h : dropPat pat s = some r) :
    r.length + pat.length = s.length := by
  induction pat generalizing s with
  | nil =>
      cases h' : dropPat [] s
      · rw [h'] at h; cases h
      · rw [h'] at h
        cases h
        cases h'
        simp
  | cons p ps ih =>
      cases s with
      | nil => cases h
      | cons c cs =>
          by_cases hpc : p = c
          · simp only [dropPat, if_pos hpc] at h
            have := ih h
            simp only [List.length_cons]
            omega
          · simp [dropPat, hpc] at h

/-- Python `str.replace`: replace every non-overlapping occurrence of `pat`
by `rep`, scanning left to right.  (Our patterns are never empty; an empty
pattern leaves the text unchanged.) -/
def replaceAll (pat rep : Str) (s : Str) : Str :=
  match s with
  | [] => []
  | c :: rest =>
      if hpat : pat = [] then c :: rest
      else
        match hdp : dropPat pat (c :: rest) with
        | some r => rep ++ replaceAll pat rep r
        | none => c :: replaceAll pat rep rest
termination_by s.length
decreasing_by
  · have := dropPat_length hdp
    rcases pat with _ | ⟨p, ps⟩
    · exact absurd rfl hpat
    · simp only [List.length_cons] at this ⊢
      omega
  · simp

/-- The literal text of a placeholder for a given name. -/
def phText (n : Str) : Str := chars "$\x7b" ++ n ++ chars "\x7d"

/-- Error-or-value outcome test. -/
def isErr {α : Type} : Except Str α → Bool
  | .error _ => true
  | .ok _ => false

/-- The substitution loop of `expand_env_vars` over the found placeholder
names: fail at the first name whose variable is unset, otherwise replace all
its occurrences. -/
def expandGo (env : List (Str × Str)) : List Str → Str → Except Str Str
  | [], acc => .ok acc
  | n :: ns, acc =>
      match envLookup env n with
      | none => .error (chars "Environment variable not set: " ++ n)
      | some v => expandGo env ns (replaceAll (phText n) v acc)

/-- `expand_env_vars` on a single string value. -/
def expandStr (env : List (Str × Str)) (s : Str) : Except Str Str :=
  expandGo env (findPH s) s

/-- First-error traversal of a list in the `Except` monad (the semantics of
a Python comprehension whose body may raise). -/
def exceptMapM {α β : Type} (f : α → Except Str β) : List α → Except Str (List β)
  | [] => .ok []
  | x :: rest =>
      match f x with
      | .error e => .error e
      | .ok y =>
          match exceptMapM f rest with
          | .error e => .error e
          | .ok ys => .ok (y :: ys)

/-- `expand_env_vars`: recursive expansion over a parsed document.  The
recursion is fuel-indexed to stay structural; `expandEnvVars` below always
supplies sufficient fuel (the document's size), so the fuel-exhaustion
branch is unreachable on the calls the embedding makes. -/
def expandYF (env : List (Str × Str)) : Nat → YVal → Except Str YVal
  | 0, _ => .error (chars "recursion depth")
  | _ + 1, .str s =>
      (match expandStr env s with
       | .error e => .error e
       | .ok r => .ok (.str r))
  | fuel + 1, .arr l =>
      (match exceptMapM (expandYF env fuel) l with
       | .error e => .error e
       | .ok l' => .ok (.arr l'))
  | fuel + 1, .obj kvs =>
      (match exceptMapM (fun kv =>
          match expandYF env fuel kv.2 with
          | .error e => .error e
          | .ok v' => .ok (kv.1, v')) kvs with
       | .error e => .error e
       | .ok kvs' => .ok (.obj kvs'))
  | _ + 1, .int n => .ok (.int n)
  | _ + 1, .bool b => .ok (.bool b)
  | _ + 1, .null => .ok .null

/-- Does a string contain a placeholder whose variable is unset? -/
def strHasUnset (env : List (Str × Str)) (s : Str) : Bool :=
  (findPH s).any fun n => (envLookup env n).isNone

/-- The document contains, somewhere, a `$\x7bNAME\x7d` placeholder whose
environment variable is unset. -/
inductive HasUnset (env : List (Str × Str)) : YVal → Prop where
  | str {s : Str} : strHasUnset env s = true → HasUnset env (.str s)
  | arr {l : List YVal} {v : YVal} : v ∈ l → HasUnset env v → HasUnset env (.arr l)
  | obj {kvs : List (Str × YVal)} {k : Str} {v : YVal} :
      (k, v) ∈ kvs → HasUnset env v → HasUnset env (.obj kvs)

theorem expandGo_err (env : List (Str × Str)) (ns : List Str) (acc : Str)
    (h : (ns.any fun n => (envLookup env n).isNone) = true) :
    isErr (expandGo env ns acc) = true := by
  induction ns generalizing acc with
  | nil => simp at h
  | cons n rest ih =>
      simp only [List.any_cons, Bool.or_eq_true] at h
      cases hl : envLookup env n with
      | none => simp [expandGo, hl, isErr]
      | some v =>
          rcases h with h | h
          · rw [hl] at h; simp at h
          · simpa [expandGo, hl] using ih _ h

theorem expandStr_err (env : List (Str × Str)) (s : Str)
    (h : strHasUnset env s = true) : isErr (expandStr env s) = true :=
  expandGo_err env (findPH s) s h

theorem exceptMapM_err {α β : Type} (f : α → Except Str β) (l : List α)
    (h : ∃ x ∈ l, isErr (f x) = true) : isErr (exceptMapM f l) = true := by
  induction l with
  | nil => simp at h
  | cons x rest ih =>
      obtain ⟨y, hy, hErr⟩ := h
      cases hfx : f x with
      | error e => simp [exceptMapM, hfx, isErr]
      | ok v =>
          rcases List.mem_cons.mp hy with rfl | hy'
          · rw [hfx] at hErr; simp [isErr] at hErr
          · have := ih ⟨y, hy', hErr⟩
            cases hr : exceptMapM f rest with
            | error e => simp [exceptMapM, hfx, hr, isErr]
            | ok vs => rw [hr] at this; simp [isErr] at this

/-- An unset placeholder anywhere in the document forces the expansion to
fail, for every fuel value (running out of fuel is itself a failure). -/
theorem expandYF_err (env : List (Str × Str)) {v : YVal} (h : HasUnset env v) :
    ∀ fuel : Nat, isErr (expandYF env fuel v) = true := by
  induction h with
  | str hs =>
      rename_i s
      intro fuel
      cases fuel with
      | zero => simp [expandYF, isErr]
      | succ n =>
          have hstr := expandStr_err env s hs
          cases hx : expandStr env s with
          | error e => simp [expandYF, hx, isErr]
          | ok r => rw [hx] at hstr; simp [isErr] at hstr
  | arr hmem _ ih =>
      rename_i l x hun
      intro fuel
      cases fuel with
      | zero => simp [expandYF, isErr]
      | succ n =>
          have hmap := exceptMapM_err (expandYF env n) l ⟨x, hmem, ih n⟩
          cases hr : exceptMapM (expandYF env n) l with
          | error e => simp [expandYF, hr, isErr]
          | ok vs => rw [hr] at hmap; simp [isErr] at hmap
  | obj hmem _ ih =>
      intro fuel
      cases fuel with
      | zero => simp [expandYF, isErr]
      | succ n =>
          rename_i kvs k v' _
          have hkvErr : isErr ((fun kv : Str × YVal =>
              match expandYF env n kv.2 with
              | .error e => Except.error e
              | .ok w => Except.ok (kv.1, w)) (k, v')) = true := by
            have := ih n
            cases hx : expandYF env n v' with
            | error e => simp [hx, isErr]
            | ok w => rw [hx] at this; simp [isErr] at this
          have hmap := exceptMapM_err (fun kv : Str × YVal =>
              match expandYF env n kv.2 with
              | .error e => Except.error e
              | .ok w => Except.ok (kv.1, w)) kvs ⟨(k, v'), hmem, hkvErr⟩
          cases hr : exceptMapM (fun kv : Str × YVal =>
              match expandYF env n kv.2 with
              | .error e => Except.error e
              | .ok w => Except.ok (kv.1, w)) kvs with
          | error e => simp [expandYF, hr, isErr]
          | ok vs => rw [hr] at hmap; simp [isErr] at hmap

/-- The ten known discriminant values of `SECRET_TYPE_MAP`. -/
def SECRET_TYPE_NAMES : List Str :=
  [chars "postgres", chars "mysql", chars "s3", chars "gcs", chars "azure",
   chars "r2", chars "http", chars "iceberg", chars "ducklake", chars "huggingface"]

/-- The required field names of a variant (always includes `type`). -/
def requiredOf (ty : Str) : List Str :=
  if ty = chars "postgres" then
    [chars "type", chars "host", chars "user", chars "password", chars "database"]
  else if ty = chars "mysql" then
    [chars "type", chars "host", chars "user", chars "password", chars "database"]
  else if ty = chars "s3" then
    [chars "type", chars "key_id", chars "secret", chars "region"]
  else if ty = chars "gcs" then
    [chars "type", chars "key_id", chars "secret"]
  else if ty = chars "azure" then
    [chars "type"]
  else if ty = chars "r2" then
    [chars "type", chars "key_id", chars "secret", chars "account_id"]
  else if ty = chars "http" then
    [chars "type"]
  else if ty = chars "iceberg" then
    [chars "type"]
  else if ty = chars "ducklake" then
    [chars "type", chars "metadata_path", chars "data_path"]
  else if ty = chars "huggingface" then
    [chars "type"]
  else []

/-- The full declared field set of a variant (closed schema). -/
def allowedOf (ty : Str) : List Str :=
  if ty = chars "postgres" then
    [chars "type", chars "host", chars "port", chars "user", chars "password",
     chars "database", chars "schema"]
  else if ty = chars "mysql" then
    [chars "type", chars "host", chars "port", chars "user", chars "password",
     chars "database"]
  else if ty = chars "s3" then
    [chars "type", chars "key_id", chars "secret", chars "region", chars "scope",
     chars "endpoint", chars "use_ssl"]
  else if ty = chars "gcs" then
    [chars "type", chars "key_id", chars "secret", chars "region", chars "scope"]
  else if ty = chars "azure" then
    [chars "type", chars "account_name", chars "account_key", chars "connection_string",
     chars "tenant_id", chars "client_id", chars "client_secret",
     chars "client_certificate_path", chars "chain", chars "provider"]
  else if ty = chars "r2" then
    [chars "type", chars "key_id", chars "secret", chars "account_id", chars "region",
     chars "scope"]
  else if ty = chars "http" then
    [chars "type", chars "bearer_token", chars "extra_http_headers", chars "http_proxy",
     chars "http_proxy_username", chars "http_proxy_password"]
  else if ty = chars "iceberg" then
    [chars "type", chars "token", chars "client_id", chars "client_secret",
     chars "oauth2_server_uri", chars "oauth2_scope"]
  else if ty = chars "ducklake" then
    [chars "type", chars "metadata_path", chars "data_path", chars "metadata_parameters"]
  else if ty = chars "huggingface" then
    [chars "type", chars "token", chars "provider"]
  else []

/-- Are all present keys inside the allowed set? (`extra="forbid"`) -/
def keysOk (d : List (Str × YVal)) (allowed : List Str) : Bool :=
  d.all fun kv => decide (kv.1 ∈ allowed)

/-- Declarative schema validity of one raw credential entry: known
discriminant, no unknown field, and every required field present. -/
def validEntry : YVal → Bool
  | .obj kvs =>
      (match alookup kvs (chars "type") with
       | some (.str ty) =>
           decide (ty ∈ SECRET_TYPE_NAMES) && keysOk kvs (allowedOf ty) &&
           (requiredOf ty).all (hasKeyY kvs)
       | _ => false)
  | _ => false

/-- Extract a required string field. -/
def getStr (kvs : List (Str × YVal)) (k : Str) : Except Str Str :=
  match alookup kvs k with
  | some (.str s) => .ok s
  | some _ => .error (chars "Input should be a valid string: " ++ k)
  | none => .error (chars "Field required: " ++ k)

/-- Extract a defaulted string field. -/
def getStrD (kvs : List (Str × YVal)) (k : Str) (dflt : Str) : Except Str Str :=
  match alookup kvs k with
  | some (.str s) => .ok s
  | some _ => .error (chars "Input should be a valid string: " ++ k)
  | none => .ok dflt

/-- Extract a defaulted integer field. -/
def getIntD (kvs : List (Str × YVal)) (k : Str) (dflt : Int) : Except Str Int :=
  match alookup kvs k with
  | some (.int n) => .ok n
  | some _ => .error (chars "Input should be a valid integer: " ++ k)
  | none => .ok dflt

/-- Extract a defaulted boolean field. -/
def getBoolD (kvs : List (Str × YVal)) (k : Str) (dflt : Bool) : Except Str Bool :=
  match alookup kvs k with
  | some (.bool b) => .ok b
  | some _ => .error (chars "Input should be a valid boolean: " ++ k)
  | none => .ok dflt

/-- Extract an optional string field (absent and null both map to none). -/
def getOptStr (kvs : List (Str × YVal)) (k : Str) : Except Str (Option Str) :=
  match alookup kvs k with
  | some (.str s) => .ok (some s)
  | some .null => .ok none
  | some _ => .error (chars "Input should be a valid string: " ++ k)
  | none => .ok none

/-- Extract an optional string-to-string map field. -/
def getOptMap (kvs : List (Str × YVal)) (k : Str) :
    Except Str (Option (List (Str × Str))) :=
  match alookup kvs k with
  | some (.obj m) =>
      (match exceptMapM (fun kv =>
          match kv.2 with
          | YVal.str s => Except.ok (kv.1, s)
          | _ => Except.error (chars "Input should be a valid string: " ++ k)) m with
       | .error e => .error e
       | .ok l => .ok (some l))
  | some .null => .ok none
  | some _ => .error (chars "Input should be a valid dictionary: " ++ k)
  | none => .ok none

/-- Strict per-variant validation shell: reject unknown fields, then missing
required fields, then build the typed credential. -/
def parseWith (required allowed : List Str) (kvs : List (Str × YVal))
    (build : Except Str AnySecret) : Except Str AnySecret :=
  if !keysOk kvs allowed then .error (chars "Extra inputs are not permitted")
  else if !(required.all (hasKeyY kvs)) then .error (chars "Field required")
  else build

/-- Field extraction and construction of the typed credential, by
discriminant. -/
def buildSecret (ty : Str) (kvs : List (Str × YVal)) : Except Str AnySecret :=
  if ty = chars "postgres" then
    (do
      let host ← getStr kvs (chars "host")
      let port ← getIntD kvs (chars "port") 5432
      let user ← getStr kvs (chars "user")
      let password ← getStr kvs (chars "password")
      let database ← getStr kvs (chars "database")
      let schemaV ← getStrD kvs (chars "schema") (chars "public")
      pure (.postgres ⟨host, port, user, password, database, schemaV⟩))
  else if ty = chars "mysql" then
    (do
      let host ← getStr kvs (chars "host")
      let port ← getIntD kvs (chars "port") 3306
      let user ← getStr kvs (chars "user")
      let password ← getStr kvs (chars "password")
      let database ← getStr kvs (chars "database")
      pure (.mysql ⟨host, port, user, password, database⟩))
  else if ty = chars "s3" then
    (do
      let keyId ← getStr kvs (chars "key_id")
      let sec ← getStr kvs (chars "secret")
      let region ← getStr kvs (chars "region")
      let scope ← getOptStr kvs (chars "scope")
      let endpoint ← getOptStr kvs (chars "endpoint")
      let useSsl ← getBoolD kvs (chars "use_ssl") true
      pure (.s3 ⟨keyId, sec, region, scope, endpoint, useSsl⟩))
  else if ty = chars "gcs" then
    (do
      let keyId ← getStr kvs (chars "key_id")
      let sec ← getStr kvs (chars "secret")
      let region ← getOptStr kvs (chars "region")
      let scope ← getOptStr kvs (chars "scope")
      pure (.gcs ⟨keyId, sec, region, scope⟩))
  else if ty = chars "azure" then
    (do
      let accountName ← getOptStr kvs (chars "account_name")
      let accountKey ← getOptStr kvs (chars "account_key")
      let connectionString ← getOptStr kvs (chars "connection_string")
      let tenantId ← getOptStr kvs (chars "tenant_id")
      let clientId ← getOptStr kvs (chars "client_id")
      let clientSecret ← getOptStr kvs (chars "client_secret")
      let clientCertificatePath ← getOptStr kvs (chars "client_certificate_path")
      let chain ← getOptStr kvs (chars "chain")
      let provider ← getOptStr kvs (chars "provider")
      pure (.azure ⟨accountName, accountKey, connectionString, tenantId, clientId,
        clientSecret, clientCertificatePath, chain, provider⟩))
  else if ty = chars "r2" then
    (do
      let keyId ← getStr kvs (chars "key_id")
      let sec ← getStr kvs (chars "secret")
      let accountId ← getStr kvs (chars "account_id")
      let region ← getOptStr kvs (chars "region")
      let scope ← getOptStr kvs (chars "scope")
      pure (.r2 ⟨keyId, sec, accountId, region, scope⟩))
  else if ty = chars "http" then
    (do
      let bearerToken ← getOptStr kvs (chars "bearer_token")
      let extraHttpHeaders ← getOptMap kvs (chars "extra_http_headers")
      let httpProxy ← getOptStr kvs (chars "http_proxy")
      let httpProxyUsername ← getOptStr kvs (chars "http_proxy_username")
      let httpProxyPassword ← getOptStr kvs (chars "http_proxy_password")
      pure (.http ⟨bearerToken, extraHttpHeaders, httpProxy, httpProxyUsername,
        httpProxyPassword⟩))
  else if ty = chars "iceberg" then
    (do
      let token ← getOptStr kvs (chars "token")
      let clientId ← getOptStr kvs (chars "client_id")
      let clientSecret ← getOptStr kvs (chars "client_secret")
      let oauth2ServerUri ← getOptStr kvs (chars "oauth2_server_uri")
      let oauth2Scope ← getOptStr kvs (chars "oauth2_scope")
      pure (.iceberg ⟨token, clientId, clientSecret, oauth2ServerUri, oauth2Scope⟩))
  else if ty = chars "ducklake" then
    (do
      let metadataPath ← getStr kvs (chars "metadata_path")
      let dataPath ← getStr kvs (chars "data_path")
      let metadataParameters ← getOptMap kvs (chars "metadata_parameters")
      pure (.ducklake ⟨metadataPath, dataPath, metadataParameters⟩))
  else if ty = chars "huggingface" then
    (do
      let token ← getOptStr kvs (chars "token")
      let provider ← getOptStr kvs (chars "provider")
      pure (.huggingface ⟨token, provider⟩))
  else .error (chars "Unknown secret type: " ++ ty)

/-- Strict per-variant validation (the pydantic model for the discriminant):
closed field set, required fields, then field extraction. -/
def parseSecretOfType (ty : Str) (kvs : List (Str × YVal)) : Except Str AnySecret :=
  if decide (ty ∈ SECRET_TYPE_NAMES) then
    parseWith (requiredOf ty) (allowedOf ty) kvs (buildSecret ty kvs)
  else .error (chars "Unknown secret type: " ++ ty)

/-- One entry of the `secrets` mapping: dispatch on the `type` field
(`parse_secret_types`), failing on unknown or missing discriminants. -/
def parseSecretEntry (d : YVal) : Except Str AnySecret :=
  match d with
  | .obj kvs =>
      (match alookup kvs (chars "type") with
       | some (.str ty) =>
           if decide (ty ∈ SECRET_TYPE_NAMES) then parseSecretOfType ty kvs
           else .error (chars "Unknown secret type: " ++ ty)
       | some _ => .error (chars "Unknown secret type")
       | none => .error (chars "Unknown secret type: None"))
  | _ => .error (chars "secret entry is not a mapping")

/-- Top-level closed schema of the secrets file (`secrets`, `options`). -/
def topKeysOk (kvs : List (Str × YVal)) : Bool :=
  kvs.all fun kv => kv.1 = chars "secrets" || kv.1 = chars "options"

/-- The optional `options` bag must be a mapping when present. -/
def optionsOk (kvs : List (Str × YVal)) : Bool :=
  match alookup kvs (chars "options") with
  | some (.obj _) => true
  | some .null => true
  | none => true
  | some _ => false

/-- Parse one named entry of the `secrets` mapping. -/
def parseNamedEntry (kv : Str × YVal) : Except Str (Str × AnySecret) :=
  match parseSecretEntry kv.2 with
  | .error e => .error e
  | .ok sec => .ok (kv.1, sec)

/-- `SecretsConfig(**expanded_data)`: top-level closed schema (`secrets`,
`options`), `secrets` defaulting to an empty mapping, each entry parsed by
discriminant. -/
def parseSecretsConfig (doc : YVal) : Except Str (List (Str × AnySecret)) :=
  match doc with
  | .obj kvs =>
      if !topKeysOk kvs then .error (chars "Extra inputs are not permitted")
      else if !optionsOk kvs then .error (chars "options must be a mapping")
      else
        (match (alookup kvs (chars "secrets")).getD (.obj []) with
         | .obj secretsRaw => exceptMapM parseNamedEntry secretsRaw
         | _ => .error (chars "secrets must be a mapping"))
  | _ => .error (chars "secrets config must be a mapping")

/-- `load_secrets_from_yaml`: existence check, YAML parse, empty check,
environment expansion, then strict validation.  `fileExists` and
`yamlParsed` stand for the filesystem and YAML library outcomes; `fuel`
bounds the expansion recursion depth (any sufficiently large value). -/
def loadSecretsFromYaml (fileExists : Bool) (yamlParsed : Except Str (Option YVal))
    (env : List (Str × Str)) (fuel : Nat) : Except Str (List (Str × AnySecret)) :=
  if !fileExists then .error (chars "Secrets file not found")
  else
    match yamlParsed with
    | .error e => .error (chars "Invalid YAML in secrets file: " ++ e)
    | .ok none => .error (chars "Secrets file is empty")
    | .ok (some doc) =>
        match expandYF env fuel doc with
        | .error e => .error e
        | .ok expanded => parseSecretsConfig expanded

theorem parseWith_ok {required allowed : List Str} {kvs : List (Str × YVal)}
    {build : Except Str AnySecret}
    (h : isErr (parseWith required allowed kvs build) = false) :
    keysOk kvs allowed = true ∧ required.all (hasKeyY kvs) = true := by
  by_cases h1 : keysOk kvs allowed
  · by_cases h2 : required.all (hasKeyY kvs)
    · exact ⟨h1, h2⟩
    · rw [parseWith, if_neg (by simp [h1]), if_pos (by simp [h2])] at h
      simp [isErr] at h
  · rw [parseWith, if_pos (by simp [h1])] at h
    simp [isErr] at h

theorem parseSecretOfType_ok {ty : Str} {kvs : List (Str × YVal)}
    (h : isErr (parseSecretOfType ty kvs) = false) :
    keysOk kvs (allowedOf ty) = true ∧ (requiredOf ty).all (hasKeyY kvs) = true := by
  rw [parseSecretOfType] at h
  by_cases hmem : ty ∈ SECRET_TYPE_NAMES
  · rw [if_pos (by simpa using hmem)] at h
    exact parseWith_ok h
  · rw [if_neg (by simpa using hmem)] at h
    simp [isErr] at h

/-- A credential entry the strict parser accepts satisfies the declarative
closed schema: known discriminant, no unknown fields, all required present. -/
theorem parseSecretEntry_ok_valid {d : YVal}
    (h : isErr (parseSecretEntry d) = false) : validEntry d = true := by
  cases d with
  | obj kvs =>
      cases hty : alookup kvs (chars "type") with
      | none => simp [parseSecretEntry, hty, isErr] at h
      | some tv =>
          cases tv with
          | str ty =>
              by_cases hmem : ty ∈ SECRET_TYPE_NAMES
              · have hpo : isErr (parseSecretOfType ty kvs) = false := by
                  simpa [parseSecretEntry, hty, hmem] using h
                obtain ⟨hkeys, hreq⟩ := parseSecretOfType_ok hpo
                simp [validEntry, hty, hmem, hkeys, hreq]
              · simp [parseSecretEntry, hty, hmem, isErr] at h
          | int n => simp [parseSecretEntry, hty, isErr] at h
          | bool b => simp [parseSecretEntry, hty, isErr] at h
          | null => simp [parseSecretEntry, hty, isErr] at h
          | arr l => simp [parseSecretEntry, hty, isErr] at h
          | obj m => simp [parseSecretEntry, hty, isErr] at h
  | str s => simp [parseSecretEntry, isErr] at h
  | int n => simp [parseSecretEntry, isErr] at h
  | bool b => simp [parseSecretEntry, isErr] at h
  | null => simp [parseSecretEntry, isErr] at h
  | arr l => simp [parseSecretEntry, isErr] at h

/-- C9: credential loading enforces a closed schema.  Load fails when the
file is absent, when the YAML syntax is invalid, when the parsed document is
empty, and when any entry of the (expanded) `secrets` mapping violates its
variant schema (unknown discriminant, missing required field, or a field
outside the declared set — all three are `validEntry = false`); and a store
is returned only if every entry validates. -/
theorem c9_secret_loading_closed (env : List (Str × Str)) (fuel : Nat) :
    (∀ yp, isErr (loadSecretsFromYaml false yp env fuel) = true) ∧
    (∀ e, isErr (loadSecretsFromYaml true (.error e) env fuel) = true) ∧
    (isErr (loadSecretsFromYaml true (.ok none) env fuel) = true) ∧
    (∀ doc kvs sdict name entry,
        expandYF env fuel doc = .ok (.obj kvs) →
        (alookup kvs (chars "secrets")).getD (.obj []) = .obj sdict →
        (name, entry) ∈ sdict →
        validEntry entry = false →
        isErr (loadSecretsFromYaml true (.ok (some doc)) env fuel) = true) ∧
    (∀ doc kvs sdict store,
        expandYF env fuel doc = .ok (.obj kvs) →
        (alookup kvs (chars "secrets")).getD (.obj []) = .obj sdict →
        loadSecretsFromYaml true (.ok (some doc)) env fuel = .ok store →
        ∀ e ∈ sdict, validEntry e.2 = true) := by
  refine ⟨?_, ?_, ?_, ?_, ?_⟩
  · intro yp; simp [loadSecretsFromYaml, isErr]
  · intro e; simp [loadSecretsFromYaml, isErr]
  · simp [loadSecretsFromYaml, isErr]
  · intro doc kvs sdict name entry hexp hsd hmem hbad
    by_cases htop : topKeysOk kvs
    · by_cases hopt : optionsOk kvs
      · have hgoal : isErr (exceptMapM parseNamedEntry sdict) = true := by
          refine exceptMapM_err parseNamedEntry sdict ⟨(name, entry), hmem, ?_⟩
          have hperr : isErr (parseSecretEntry entry) = true := by
            by_cases hq : isErr (parseSecretEntry entry) = true
            · exact hq
            · exact absurd (parseSecretEntry_ok_valid (by simpa using hq))
                (by simp [hbad])
          rw [parseNamedEntry]
          cases hx : parseSecretEntry entry with
          | error e => simp [isErr]
          | ok sec => rw [hx] at hperr; simp [isErr] at hperr
        simpa [loadSecretsFromYaml, parseSecretsConfig, hexp, htop, hopt, hsd]
          using hgoal
      · simp [loadSecretsFromYaml, parseSecretsConfig, hexp, htop, hopt, isErr]
    · simp [loadSecretsFromYaml, parseSecretsConfig, hexp, htop, isErr]
  · intro doc kvs sdict store hexp hsd hok e hmem
    by_cases htop : topKeysOk kvs
    · by_cases hopt : optionsOk kvs
      · simp only [loadSecretsFromYaml, parseSecretsConfig, hexp, htop, hopt, hsd,
          Bool.not_true, Bool.not_false, Bool.false_eq_true, if_false, if_true,
          ite_false, ite_true] at hok
        have hne : isErr (parseNamedEntry e) = false := by
          by_cases hq : isErr (parseNamedEntry e) = true
          · have hcontra := exceptMapM_err parseNamedEntry sdict ⟨e, hmem, hq⟩
            rw [hok] at hcontra
            simp [isErr] at hcontra
          · simpa using hq
        rw [parseNamedEntry] at hne
        cases hx : parseSecretEntry e.2 with
        | error er => rw [hx] at hne; simp [isErr] at hne
        | ok sec => exact parseSecretEntry_ok_valid (by simp [hx, isErr])
      · simp [loadSecretsFromYaml, parseSecretsConfig, hexp, htop, hopt] at hok
    · simp [loadSecretsFromYaml, parseSecretsConfig, hexp, htop] at hok

/-- Witness for C9: the unknown-discriminant document is rejected, and a
well-formed postgres document loads with its (sole) entry schema-valid. -/
theorem c9_secret_loading_closed_witness :
    isErr (loadSecretsFromYaml true (.ok (some (.obj [(chars "secrets",
      .obj [(chars "a", .obj [(chars "type", .str (chars "fancy"))])])])))
      [] 5) = true ∧
    (∀ e ∈ [(chars "pg", YVal.obj [(chars "type", YVal.str (chars "postgres")),
        (chars "host", YVal.str (chars "h")), (chars "user", YVal.str (chars "u")),
        (chars "password", YVal.str (chars "p")),
        (chars "database", YVal.str (chars "d"))])], validEntry e.2 = true) := by
  constructor
  · exact (c9_secret_loading_closed [] 5).2.2.2.1
      (.obj [(chars "secrets", .obj [(chars "a", .obj [(chars "type", .str (chars "fancy"))])])])
      [(chars "secrets", .obj [(chars "a", .obj [(chars "type", .str (chars "fancy"))])])]
      [(chars "a", .obj [(chars "type", .str (chars "fancy"))])]
      (chars "a") (.obj [(chars "type", .str (chars "fancy"))])
      (by rfl) (by rfl) (List.mem_singleton.mpr rfl) (by rfl)
  · exact (c9_secret_loading_closed [] 5).2.2.2.2
      (.obj [(chars "secrets", .obj [(chars "pg", .obj [(chars "type", .str (chars "postgres")),
        (chars "host", .str (chars "h")), (chars "user", .str (chars "u")),
        (chars "password", .str (chars "p")), (chars "database", .str (chars "d"))])])])
      [(chars "secrets", .obj [(chars "pg", .obj [(chars "type", .str (chars "postgres")),
        (chars "host", .str (chars "h")), (chars "user", .str (chars "u")),
        (chars "password", .str (chars "p")), (chars "database", .str (chars "d"))])])]
      [(chars "pg", .obj [(chars "type", .str (chars "postgres")),
        (chars "host", .str (chars "h")), (chars "user", .str (chars "u")),
        (chars "password", .str (chars "p")), (chars "database", .str (chars "d"))])]
      [(chars "pg", .postgres ⟨chars "h", 5432, chars "u", chars "p", chars "d", chars "public"⟩)]
      (by rfl) (by rfl) (by rfl)

/-- A materialized result row. -/
abbrev Row := List YVal

/-- polars `df.head(n)` with a Python int argument: non-negative keeps the
first `n` rows, negative drops the last `|n|` rows. -/
def plHead (rows : List Row) (n : Int) : List Row :=
  if 0 ≤ n then rows.take n.toNat else rows.take (rows.length - n.natAbs)

/-- The row-count truncation step of `main` (lines 721-724):
`if len(df) > max_rows: df = df.head(max_rows); truncated = True`. -/
def shapeRows (rows : List Row) (maxRows : Int) : List Row × Bool :=
  if (rows.length : Int) > maxRows then (plHead rows maxRows, true) else (rows, false)

/-- Modelled from the spec: the engine's evaluation of the wrapped query's
`LIMIT max_rows + 1` clause returns the first `max_rows + 1` rows of the
underlying `M`-row result (the engine itself is an external collaborator). -/
def wrappedResult (src : List Row) (maxRows : Nat) : List Row :=
  src.take (maxRows + 1)

/-- C4: for an ordinary query against a source of `M` rows with
`max_rows = N`: `M > N` gives exactly `N` kept rows with `truncated = true`;
`M ≤ N` gives all `M` rows with `truncated = false`. -/
theorem c4_max_rows_truncation (src : List Row) (N : Nat) :
    (src.length > N →
      (shapeRows (wrappedResult src N) (N : Int)).1.length = N ∧
      (shapeRows (wrappedResult src N) (N : Int)).2 = true) ∧
    (src.length ≤ N →
      (shapeRows (wrappedResult src N) (N : Int)).1 = src ∧
      (shapeRows (wrappedResult src N) (N : Int)).2 = false) := by
  constructor
  · intro hM
    have hlen : (wrappedResult src N).length = N + 1 := by
      rw [wrappedResult, List.length_take]
      omega
    have hcond : ((wrappedResult src N).length : Int) > (N : Int) := by
      rw [hlen]; exact_mod_cast Nat.lt_succ_self N
    rw [shapeRows, if_pos hcond]
    constructor
    · rw [plHead, if_pos (by exact_mod_cast Nat.zero_le N)]
      rw [List.length_take, hlen]
      simp
    · rfl
  · intro hM
    have htake : wrappedResult src N = src := by
      rw [wrappedResult]
      exact List.take_of_length_le (by omega)
    have hcond : ¬ ((wrappedResult src N).length : Int) > (N : Int) := by
      rw [htake]; exact_mod_cast Nat.not_lt.mpr hM
    rw [shapeRows, if_neg hcond, htake]
    exact ⟨rfl, rfl⟩

/-- Witness for C4 at `M = 5`, `N = 3` and at `M = 2`, `N = 3`. -/
theorem c4_max_rows_truncation_witness :
    ((shapeRows (wrappedResult [[YVal.int 0], [YVal.int 1], [YVal.int 2],
        [YVal.int 3], [YVal.int 4]] 3) (3 : Int)).1.length = 3 ∧
     (shapeRows (wrappedResult [[YVal.int 0], [YVal.int 1], [YVal.int 2],
        [YVal.int 3], [YVal.int 4]] 3) (3 : Int)).2 = true) ∧
    ((shapeRows (wrappedResult [[YVal.int 0], [YVal.int 1]] 3) (3 : Int)).1 =
        [[YVal.int 0], [YVal.int 1]] ∧
     (shapeRows (wrappedResult [[YVal.int 0], [YVal.int 1]] 3) (3 : Int)).2 = false) :=
  ⟨(c4_max_rows_truncation [[YVal.int 0], [YVal.int 1], [YVal.int 2],
      [YVal.int 3], [YVal.int 4]] 3).1 (by simp),
   (c4_max_rows_truncation [[YVal.int 0], [YVal.int 1]] 3).2 (by simp)⟩

/-- C10: a utility statement is executed verbatim (no LIMIT is injected),
yet its materialized result is still truncated to at most `max_rows` rows,
with `truncated = true` exactly when the engine returned more. -/
theorem c10_utility_rows_bounded (q : Str) (engineRows : List Row) (N : Nat)
    (hu : is_utility_statement q = true) :
    executedSql q (N : Int) = q ∧
    (shapeRows engineRows (N : Int)).1.length ≤ N ∧
    (engineRows.length > N →
      (shapeRows engineRows (N : Int)).1.length = N ∧
      (shapeRows engineRows (N : Int)).2 = true) := by
  refine ⟨by rw [executedSql, if_pos hu], ?_, ?_⟩
  · by_cases hc : (engineRows.length : Int) > (N : Int)
    · rw [shapeRows, if_pos hc, plHead, if_pos (by exact_mod_cast Nat.zero_le N)]
      simp [List.length_take]
    · rw [shapeRows, if_neg hc]
      have : engineRows.length ≤ N := by exact_mod_cast Int.not_lt.mp hc
      simpa using this
  · intro hM
    have hc : (engineRows.length : Int) > (N : Int) := by exact_mod_cast hM
    rw [shapeRows, if_pos hc, plHead, if_pos (by exact_mod_cast Nat.zero_le N)]
    refine ⟨?_, rfl⟩
    simp only [List.length_take, Int.toNat_natCast]
    omega

/-- Witness for C10: `DESCRIBE t` with a 3-row engine result and
`max_rows = 2`. -/
theorem c10_utility_rows_bounded_witness :
    executedSql (chars "DESCRIBE t") (2 : Int) = chars "DESCRIBE t" ∧
    (shapeRows [[YVal.int 0], [YVal.int 1], [YVal.int 2]] (2 : Int)).1.length ≤ 2 ∧
    ((shapeRows [[YVal.int 0], [YVal.int 1], [YVal.int 2]] (2 : Int)).1.length = 2 ∧
     (shapeRows [[YVal.int 0], [YVal.int 1], [YVal.int 2]] (2 : Int)).2 = true) := by
  have h := c10_utility_rows_bounded (chars "DESCRIBE t")
    [[YVal.int 0], [YVal.int 1], [YVal.int 2]] 2 (by decide)
  exact ⟨h.1, h.2.1, h.2.2 (by simp)⟩

/-- One pass of the byte-budget loop body:
`df = df.head(max(1, len(df) * 3 // 4))`. -/
def shrinkStep (df : List Row) : List Row :=
  df.take (max 1 (df.length * 3 / 4))

/-- The byte-budget loop of `main` (lines 775-785):
`while len(df) > 0 and len(encoded) > max_bytes`, re-serializing after each
reduction.  The state is the kept frame together with the current
`truncated` flag (the body sets it to true and the re-serialized envelope
embeds it); `encLen df t` is the byte length of the serialized envelope
holding `df` with `truncated = t`.  Fuel-bounded; `none` means the bound was
reached with the loop still running. -/
def shrinkLoop (encLen : List Row → Bool → Nat) (maxBytes : Int) :
    Nat → List Row → Bool → Option (List Row × Bool)
  | 0, _, _ => none
  | fuel + 1, df, t =>
      if 0 < df.length ∧ (encLen df t : Int) > maxBytes then
        shrinkLoop encLen maxBytes fuel (shrinkStep df) true
      else some (df, t)

/-- UTF-8 width of one character. -/
def charBytes (c : Char) : Nat :=
  if c.toNat < 128 then 1
  else if c.toNat < 2048 then 2
  else if c.toNat < 65536 then 3
  else 4

/-- `len(text.encode("utf-8"))`. -/
def byteLen (s : Str) : Nat := (s.map charBytes).sum

/-- C1 (refuted by the code): the shrink step has a fixed point at one row
(`max 1 (3 // 4) = 1`), so the row count never reaches zero; consequently,
when a single remaining row still serializes above `max_bytes` (here a
constant 100-byte encoding against a 10-byte budget), the loop body's
condition stays true forever and the loop never exits, for every fuel
bound.  The spec's asserted termination ("row count strictly decreasing to
zero") does not hold. -/
theorem c1_shrink_loop_diverges :
    shrinkStep [[YVal.int 1]] = [[YVal.int 1]] ∧
    ∀ (fuel : Nat) (t : Bool),
      shrinkLoop (fun _ _ => 100) 10 fuel [[YVal.int 1]] t = none := by
  have hstep : shrinkStep [[YVal.int 1]] = [[YVal.int 1]] := rfl
  refine ⟨hstep, ?_⟩
  intro fuel
  induction fuel with
  | zero => intro t; rfl
  | succ n ih =>
      intro t
      rw [shrinkLoop, if_pos (by constructor <;> norm_num), hstep, ih]

/-- Value of a non-empty all-digit run. -/
def digitsVal (ds : Str) : Option Nat :=
  if ds = [] then none
  else if ds.all (·.isDigit) then
    some (ds.foldl (fun acc c => acc * 10 + (c.toNat - 48)) 0)
  else none

/-- Python `int(s)` on a string: surrounding whitespace stripped, optional
sign, decimal digits (digit-group underscores are not modelled). -/
def pyIntStr (s : Str) : Option Int :=
  let t := ((s.dropWhile isSpaceChar).reverse.dropWhile isSpaceChar).reverse
  match t with
  | '+' :: r => (digitsVal r).map fun n => (n : Int)
  | '-' :: r => (digitsVal r).map fun n => -(n : Int)
  | r => (digitsVal r).map fun n => (n : Int)

/-- Python `int(v)` on a parsed scalar: ints pass through, bools coerce,
digit strings parse, everything else raises. -/
def pyInt : YVal → Option Int
  | .int n => some n
  | .bool b => some (if b then 1 else 0)
  | .str s => pyIntStr s
  | _ => none

/-- The four output formats (`options.get("format", "markdown")`; anything
unrecognized falls through to the schema+rows JSON shape). -/
inductive Format where
  | markdown
  | json
  | records
  | csv
deriving DecidableEq, Repr

/-- Format selection by the if/elif chain of `main`. -/
def formatOf : YVal → Format
  | .str s =>
      if s = chars "markdown" then .markdown
      else if s = chars "records" then .records
      else if s = chars "csv" then .csv
      else .json
  | _ => .json

/-- Engine interactions, in order of occurrence. -/
inductive EngineEvent where
  | connect
  | registerSecret (name : Str)
  | createView (viewAlias : Str)
  | runQuery (sql : Str)

/-- The engine's materialized result: column names, type names, rows. -/
structure QueryResult where
  cols : List Str
  types : List Str
  rows : List Row

/-- External collaborators of one invocation: the parsed stdin request, the
secrets file state, the environment, the engine, and the opaque
serialization primitives (markdown renderer, CSV writer, and the byte
length of the JSON-encoded envelope as a function of the kept rows and the
embedded `truncated` flag). -/
structure World where
  parsedInput : Except Str YVal
  fileExists : Bool
  yamlParsed : Except Str (Option YVal)
  env : List (Str × Str)
  engineExec : Str → Except Str QueryResult
  renderMarkdown : List Str → List Row → Str
  renderCsv : List Str → List Row → Str
  encLen : List Row → Bool → Nat

/-- What one invocation prints (or fails to): a JSON envelope, plain
markdown text, an uncaught exception escaping `main`, or divergence of the
shrink loop (fuel exhaustion). -/
inductive MainOut where
  | crash (msg : Str)
  | printed (text : Str)
  | printedJson (o : YVal)
  | hang

/-- `{"error": msg}`. -/
def errObj (msg : Str) : YVal := .obj [(chars "error", .str msg)]

/-- The fixed advisory warning appended after the shrink loop. -/
def advisoryWarning : Str :=
  chars "Output truncated to respect max_bytes; try more aggregation or filters."

/-- `df.rows()` as a JSON value. -/
def rowsToY (rows : List Row) : YVal := .arr (rows.map .arr)

/-- `df.to_dicts()` as a JSON value. -/
def recordsToY (cols : List Str) (rows : List Row) : YVal :=
  .arr (rows.map fun r => .obj (cols.zip r))

/-- The `schema` field of the JSON shape. -/
def schemaToY (cols types : List Str) : YVal :=
  .arr ((cols.zip types).map fun ct =>
    .obj [(chars "name", .str ct.1), (chars "type", .str ct.2)])

/-- The success envelope for the three JSON-emitting formats, with the kept
rows, `truncated` flag and warnings embedded (key order as in the source). -/
def envelopeObj (fmt : Format) (qr : QueryResult) (csvText : Str)
    (df : List Row) (truncated : Bool) (warnings : List Str) : YVal :=
  match fmt with
  | .records =>
      .obj [(chars "data", recordsToY qr.cols df),
            (chars "truncated", .bool truncated),
            (chars "warnings", .arr (warnings.map .str)),
            (chars "error", .null)]
  | .csv =>
      .obj [(chars "csv", .str csvText),
            (chars "truncated", .bool truncated),
            (chars "warnings", .arr (warnings.map .str)),
            (chars "error", .null)]
  | _ =>
      .obj [(chars "schema", schemaToY qr.cols qr.types),
            (chars "rows", rowsToY df),
            (chars "truncated", .bool truncated),
            (chars "warnings", .arr (warnings.map .str)),
            (chars "error", .null)]

/-- `os.path.splitext` extension (lowercased) of the path after
`rstrip("*").rstrip("/")`, as in the file-source branch of `load_source`. -/
def fileExt (p : Str) : Str :=
  let clean := ((p.reverse.dropWhile (· = '*')).dropWhile (· = '/')).reverse
  let base := (clean.reverse.takeWhile (· ≠ '/')).reverse
  let tail := base.dropWhile (· = '.')
  if tail.any (· = '.') then
    '.' :: ((tail.reverse.takeWhile (· ≠ '.')).reverse.map lowerChar)
  else []

/-- All listed keys present (a missing one raises `KeyError`). -/
def requireKeys (src : List (Str × YVal)) (ks : List Str) : Except Str Unit :=
  if ks.all (hasKeyY src) then .ok () else .error (chars "KeyError")

/-- The per-kind dispatch of `load_source` after credential resolution:
checks the keys the source reads, emits the view-creation event, fails
closed on unsupported file extensions and unknown kinds. -/
def dispatchSource (stypeV : YVal) (src : List (Str × YVal)) (a : Str) :
    Except Str EngineEvent :=
  match stypeV with
  | .str ty =>
      if ty = chars "file" then
        match alookup src (chars "path") with
        | some (.str p) =>
            let ext := fileExt p
            if ext = chars ".csv" ∨ ext = chars ".tsv" ∨ ext = chars ".parquet" ∨
               ext = chars ".json" ∨ ext = chars ".ndjson" ∨ ext = chars ".xlsx" then
              .ok (.createView a)
            else .error (chars "Unsupported file extension: " ++ ext)
        | some _ => .error (chars "path must be a string")
        | none => .error (chars "KeyError: path")
      else if ty = chars "postgres" then
        match requireKeys src [chars "host", chars "database", chars "user",
            chars "password", chars "table"] with
        | .error e => .error e
        | .ok _ => .ok (.createView a)
      else if ty = chars "mysql" then
        match requireKeys src [chars "host", chars "database", chars "user",
            chars "password", chars "table"] with
        | .error e => .error e
        | .ok _ => .ok (.createView a)
      else if ty = chars "sqlite" then
        match requireKeys src [chars "path", chars "table"] with
        | .error e => .error e
        | .ok _ => .ok (.createView a)
      else if ty = chars "s3" then
        match requireKeys src [chars "url"] with
        | .error e => .error e
        | .ok _ => .ok (.createView a)
      else .error (chars "Unknown source type")
  | _ => .error (chars "Unknown source type")

/-- `load_source` for one source value: alias check, credential resolution
and merge, then per-kind dispatch. -/
def loadSourceE (secrets : Option (List (Str × AnySecret))) (sv : YVal) :
    Except Str EngineEvent :=
  match sv with
  | .obj src =>
      let stypeV := (alookup src (chars "type")).getD .null
      let aliasV := (alookup src (chars "alias")).getD .null
      (match aliasV with
       | .str a =>
           if a = [] then .error (chars "source missing 'alias'")
           else
             (match resolveSourceDict src secrets with
              | .error e => .error e
              | .ok merged => dispatchSource stypeV merged a)
       | other =>
           if yTruthy other then .error (chars "alias must be a string")
           else .error (chars "source missing 'alias'"))
  | _ => .error (chars "source must be a mapping")

/-- Register the declared sources in order, stopping at the first failure;
returns the view events of the successfully registered prefix. -/
def loadAllSources (secrets : Option (List (Str × AnySecret))) :
    List YVal → List EngineEvent × Option Str
  | [] => ([], none)
  | s :: rest =>
      match loadSourceE secrets s with
      | .error e => ([], some e)
      | .ok ev =>
          let r := loadAllSources secrets rest
          (ev :: r.1, r.2)

/-- Python iteration over the `sources` request value (`for src in sources`):
lists iterate their items, dicts their keys, strings their characters;
scalars raise. -/
def iterSources : YVal → Option (List YVal)
  | .arr l => some l
  | .obj kvs => some (kvs.map fun kv => .str kv.1)
  | .str s => some (s.map fun c => .str [c])
  | _ => none

/-- The serialization stage of `main` (lines 727-791): markdown prints the
rendered table (plus a truncation note) and returns before any byte-budget
check; the JSON-emitting formats serialize, run the shrink loop when over
budget, append the advisory warning once, and print the final envelope. -/
def formatStage (fmt : Format) (qr : QueryResult)
    (renderMd renderCsvF : List Str → List Row → Str)
    (encLen : List Row → Bool → Nat) (maxBytes : Int)
    (df : List Row) (truncated : Bool) (fuel : Nat) : MainOut :=
  match fmt with
  | .markdown =>
      .printed (renderMd qr.cols df ++
        (if truncated then
          chars "\n\n*Results truncated to " ++ chars (toString df.length) ++ chars " rows*"
        else []))
  | _ =>
      if (encLen df truncated : Int) > maxBytes then
        match shrinkLoop encLen maxBytes fuel df truncated with
        | none => .hang
        | some (df', t') =>
            .printedJson (envelopeObj fmt qr (renderCsvF qr.cols df') df' t'
              [advisoryWarning])
      else .printedJson (envelopeObj fmt qr (renderCsvF qr.cols df) df truncated [])

/-- The body of the protective `try` block of `main` (lines 694-794):
connect, register secrets, register sources, execute the (possibly wrapped)
query, truncate rows, and serialize; every failure becomes an error-only
envelope paired with the engine events that already happened. -/
def runEngine (w : World) (fuel : Nat) (queryV sourcesV : YVal)
    (store : List (Str × AnySecret)) (haveSecrets : Bool) (fmt : Format)
    (maxRows maxBytes : Int) : MainOut × List EngineEvent :=
  let ev0 : List EngineEvent :=
    EngineEvent.connect :: store.map fun kv => EngineEvent.registerSecret kv.1
  match iterSources sourcesV with
  | none => (.printedJson (errObj (chars "sources is not iterable")), ev0)
  | some srcList =>
      match loadAllSources (if haveSecrets then some store else none) srcList with
      | (viewEvents, some e) => (.printedJson (errObj e), ev0 ++ viewEvents)
      | (viewEvents, none) =>
          match queryV with
          | .str q =>
              let sql := executedSql q maxRows
              (match w.engineExec sql with
               | .error e =>
                   (.printedJson (errObj e), ev0 ++ viewEvents ++ [.runQuery sql])
               | .ok qr =>
                   let shaped := shapeRows qr.rows maxRows
                   (formatStage fmt qr w.renderMarkdown w.renderCsv w.encLen
                      maxBytes shaped.1 shaped.2 fuel,
                    ev0 ++ viewEvents ++ [.runQuery sql]))
          | _ => (.printedJson (errObj (chars "query must be a string")),
                  ev0 ++ viewEvents)

/-- `main`: parse stdin, check the query, read options (outside any `try`!),
load secrets if requested, then run the engine stage under the protective
`try`.  The returned event list records every engine interaction. -/
def mainRun (w : World) (fuel : Nat) : MainOut × List EngineEvent :=
  match w.parsedInput with
  | .error e =>
      (.printedJson (errObj (chars "Invalid JSON input: " ++ e)), [])
  | .ok req =>
      match req with
      | .obj kvs =>
          let queryV := (alookup kvs (chars "query")).getD .null
          if !(yTruthy queryV) then
            (.printedJson (errObj (chars "Missing 'query'")), [])
          else
            let sourcesV := (alookup kvs (chars "sources")).getD (.arr [])
            let optionsV := (alookup kvs (chars "options")).getD (.obj [])
            let secretsFileV := (alookup kvs (chars "secrets_file")).getD .null
            (match optionsV with
             | .obj okvs =>
                 (match pyInt ((alookup okvs (chars "max_rows")).getD (.int 200)),
                        pyInt ((alookup okvs (chars "max_bytes")).getD (.int 200000)) with
                  | some maxRows, some maxBytes =>
                      let fmt := formatOf
                        ((alookup okvs (chars "format")).getD (.str (chars "markdown")))
                      if yTruthy secretsFileV then
                        (match secretsFileV with
                         | .str _ =>
                             (match loadSecretsFromYaml w.fileExists w.yamlParsed
                                 w.env fuel with
                              | .error e => (.printedJson (errObj e), [])
                              | .ok store =>
                                  runEngine w fuel queryV sourcesV store true fmt
                                    maxRows maxBytes)
                         | _ => (.printedJson (errObj (chars "invalid secrets_file")), []))
                      else
                        runEngine w fuel queryV sourcesV [] false fmt maxRows maxBytes
                  | _, _ => (.crash (chars "int() conversion failed"), []))
             | _ => (.crash (chars "AttributeError: get on options"), []))
      | _ => (.crash (chars "AttributeError: get on request"), [])

/-- Is the object an envelope holding only the error field (with a string
message)? -/
def isErrorOnlyObj : YVal → Bool
  | .obj [(k, .str _)] => k = chars "error"
  | _ => false

/-- Is the object one of the three full success shapes: payload key(s),
`truncated` boolean, `warnings` list, and an `error` field that is null? -/
def isFullEnvelope : YVal → Bool
  | .obj [(k1, _), (k2, .bool _), (k3, .arr _), (k4, .null)] =>
      (k1 = chars "data" || k1 = chars "csv") && k2 = chars "truncated" &&
      k3 = chars "warnings" && k4 = chars "error"
  | .obj [(k0, _), (k1, _), (k2, .bool _), (k3, .arr _), (k4, .null)] =>
      k0 = chars "schema" && k1 = chars "rows" && k2 = chars "truncated" &&
      k3 = chars "warnings" && k4 = chars "error"
  | _ => false

theorem isErrorOnlyObj_errObj (m : Str) : isErrorOnlyObj (errObj m) = true := rfl

theorem isFullEnvelope_envelopeObj (fmt : Format) (qr : QueryResult)
    (csvText : Str) (df : List Row) (t : Bool) (ws : List Str) :
    isFullEnvelope (envelopeObj fmt qr csvText df t ws) = true := by
  cases fmt <;> rfl

/-- Every outcome of the serialization stage is markdown text, divergence,
or a well-shaped envelope — never a crash, never a mixed envelope. -/
theorem formatStage_shape (fmt : Format) (qr : QueryResult)
    (rmd rcsv : List Str → List Row → Str) (el : List Row → Bool → Nat)
    (mb : Int) (df : List Row) (t : Bool) (fuel : Nat) :
    (∀ m, formatStage fmt qr rmd rcsv el mb df t fuel ≠ .crash m) ∧
    (∀ o, formatStage fmt qr rmd rcsv el mb df t fuel = .printedJson o →
      (isErrorOnlyObj o || isFullEnvelope o) = true) := by
  cases fmt with
  | markdown => exact ⟨fun m h => by simp [formatStage] at h,
      fun o h => by simp [formatStage] at h⟩
  | json =>
      by_cases hb : (el df t : Int) > mb
      · cases hsl : shrinkLoop el mb fuel df t with
        | none =>
            refine ⟨fun m h => ?_, fun o h => ?_⟩ <;>
              simp [formatStage, if_pos hb, hsl] at h
        | some p =>
            refine ⟨fun m h => ?_, fun o h => ?_⟩
            · simp [formatStage, if_pos hb, hsl] at h
            · simp only [formatStage, if_pos hb, hsl] at h
              cases h
              simp [isFullEnvelope_envelopeObj]
      · refine ⟨fun m h => ?_, fun o h => ?_⟩
        · simp [formatStage, if_neg hb] at h
        · simp only [formatStage, if_neg hb] at h
          cases h
          simp [isFullEnvelope_envelopeObj]
  | records =>
      by_cases hb : (el df t : Int) > mb
      · cases hsl : shrinkLoop el mb fuel df t with
        | none =>
            refine ⟨fun m h => ?_, fun o h => ?_⟩ <;>
              simp [formatStage, if_pos hb, hsl] at h
        | some p =>
            refine ⟨fun m h => ?_, fun o h => ?_⟩
            · simp [formatStage, if_pos hb, hsl] at h
            · simp only [formatStage, if_pos hb, hsl] at h
              cases h
              simp [isFullEnvelope_envelopeObj]
      · refine ⟨fun m h => ?_, fun o h => ?_⟩
        · simp [formatStage, if_neg hb] at h
        · simp only [formatStage, if_neg hb] at h
          cases h
          simp [isFullEnvelope_envelopeObj]
  | csv =>
      by_cases hb : (el df t : Int) > mb
      · cases hsl : shrinkLoop el mb fuel df t with
        | none =>
            refine ⟨fun m h => ?_, fun o h => ?_⟩ <;>
              simp [formatStage, if_pos hb, hsl] at h
        | some p =>
            refine ⟨fun m h => ?_, fun o h => ?_⟩
            · simp [formatStage, if_pos hb, hsl] at h
            · simp only [formatStage, if_pos hb, hsl] at h
              cases h
              simp [isFullEnvelope_envelopeObj]
      · refine ⟨fun m h => ?_, fun o h => ?_⟩
        · simp [formatStage, if_neg hb] at h
        · simp only [formatStage, if_neg hb] at h
          cases h
          simp [isFullEnvelope_envelopeObj]

/-- Every outcome of the engine stage is crash-free and, when it prints
JSON, prints either an error-only envelope or a full envelope. -/
theorem runEngine_shape (w : World) (fuel : Nat) (queryV sourcesV : YVal)
    (store : List (Str × AnySecret)) (hs : Bool) (fmt : Format)
    (maxRows maxBytes : Int) :
    (∀ m, (runEngine w fuel queryV sourcesV store hs fmt maxRows maxBytes).1 ≠ .crash m) ∧
    (∀ o, (runEngine w fuel queryV sourcesV store hs fmt maxRows maxBytes).1 = .printedJson o →
      (isErrorOnlyObj o || isFullEnvelope o) = true) := by
  cases hit : iterSources sourcesV with
  | none =>
      refine ⟨fun m h => ?_, fun o h => ?_⟩ <;>
        simp only [runEngine, hit] at h
      · cases h
      · cases h; simp [isErrorOnlyObj_errObj]
  | some srcList =>
      cases hls : loadAllSources (if hs then some store else none) srcList with
      | mk viewEvents res =>
          cases res with
          | some e =>
              refine ⟨fun m h => ?_, fun o h => ?_⟩ <;>
                simp only [runEngine, hit, hls] at h
              · cases h
              · cases h; simp [isErrorOnlyObj_errObj]
          | none =>
              cases queryV with
              | str q =>
                  cases hex : w.engineExec (executedSql q maxRows) with
                  | error e =>
                      refine ⟨fun m h => ?_, fun o h => ?_⟩ <;>
                        simp only [runEngine, hit, hls, hex] at h
                      · cases h
                      · cases h; simp [isErrorOnlyObj_errObj]
                  | ok qr =>
                      have hfs := formatStage_shape fmt qr w.renderMarkdown
                        w.renderCsv w.encLen maxBytes
                        (shapeRows qr.rows maxRows).1 (shapeRows qr.rows maxRows).2 fuel
                      refine ⟨fun m h => ?_, fun o h => ?_⟩ <;>
                        simp only [runEngine, hit, hls, hex] at h
                      · exact hfs.1 m h
                      · exact hfs.2 o h
              | int n =>
                  refine ⟨fun m h => ?_, fun o h => ?_⟩ <;>
                    simp only [runEngine, hit, hls] at h
                  · cases h
                  · cases h; simp [isErrorOnlyObj_errObj]
              | bool b =>
                  refine ⟨fun m h => ?_, fun o h => ?_⟩ <;>
                    simp only [runEngine, hit, hls] at h
                  · cases h
                  · cases h; simp [isErrorOnlyObj_errObj]
              | null =>
                  refine ⟨fun m h => ?_, fun o h => ?_⟩ <;>
                    simp only [runEngine, hit, hls] at h
                  · cases h
                  · cases h; simp [isErrorOnlyObj_errObj]
              | arr l =>
                  refine ⟨fun m h => ?_, fun o h => ?_⟩ <;>
                    simp only [runEngine, hit, hls] at h
                  · cases h
                  · cases h; simp [isErrorOnlyObj_errObj]
              | obj m' =>
                  refine ⟨fun m h => ?_, fun o h => ?_⟩ <;>
                    simp only [runEngine, hit, hls] at h
                  · cases h
                  · cases h; simp [isErrorOnlyObj_errObj]

/-- The outcome is never an uncaught exception, and any JSON it prints is
either the error-only envelope or a full success envelope (never a mix). -/
def ShapeOK (r : MainOut) : Prop :=
  (∀ m, r ≠ .crash m) ∧
  ∀ o, r = .printedJson o → (isErrorOnlyObj o || isFullEnvelope o) = true

theorem shapeOK_errObj (m : Str) : ShapeOK (.printedJson (errObj m)) := by
  constructor
  · intro _ h; cases h
  · intro o h; cases h; simp [isErrorOnlyObj_errObj]

theorem shapeOK_runEngine (w : World) (fuel : Nat) (queryV sourcesV : YVal)
    (store : List (Str × AnySecret)) (hs : Bool) (fmt : Format)
    (maxRows maxBytes : Int) :
    ShapeOK (runEngine w fuel queryV sourcesV store hs fmt maxRows maxBytes).1 :=
  runEngine_shape w fuel queryV sourcesV store hs fmt maxRows maxBytes

/-- World whose request is valid JSON but not an object. -/
def crashWorldReq : World :=
  ⟨.ok (.int 5), false, .ok none, [], fun _ => .error [], fun _ _ => [],
   fun _ _ => [], fun _ _ => 0⟩

/-- World whose request carries a non-integer `max_rows` option value. -/
def crashWorldOpt : World :=
  ⟨.ok (.obj [(chars "query", .str (chars "SELECT 1")),
     (chars "options", .obj [(chars "max_rows", .str (chars "abc"))])]),
   false, .ok none, [], fun _ => .error [], fun _ _ => [], fun _ _ => [],
   fun _ _ => 0⟩

/-- C3 counterexample: the request field reads and the `int(...)` option
conversions run before the protective `try` block, so a request that is
valid JSON but not an object (here the number 5), or an object whose
`max_rows` is not int-convertible (here the string "abc"), terminates the
program with an uncaught exception and no error envelope is printed — the
claim that every error is converted into an error envelope fails. -/
theorem c3_counterexample :
    (mainRun crashWorldReq 1).1 = .crash (chars "AttributeError: get on request") ∧
    (mainRun crashWorldOpt 1).1 = .crash (chars "int() conversion failed") :=
  ⟨rfl, rfl⟩

/-- C3 (amended): for requests that parse to a JSON object whose `options`
value (defaulted to an empty object) is an object with int-convertible
`max_rows` and `max_bytes`, every error raised anywhere in request handling
is caught and printed as the single-field error envelope; the program never
crashes and never prints an envelope mixing an error with a partial result.
(Requests outside this set crash before the `try` block, per the
counterexample.) -/
theorem c3_error_envelope_amended (w : World) (fuel : Nat)
    (kvs okvs : List (Str × YVal))
    (hreq : w.parsedInput = .ok (.obj kvs))
    (hov : (alookup kvs (chars "options")).getD (.obj []) = .obj okvs)
    (hmr : (pyInt ((alookup okvs (chars "max_rows")).getD (.int 200))).isSome = true)
    (hmb : (pyInt ((alookup okvs (chars "max_bytes")).getD (.int 200000))).isSome = true) :
    ShapeOK (mainRun w fuel).1 := by
  obtain ⟨mr, hmr'⟩ := Option.isSome_iff_exists.mp hmr
  obtain ⟨mb, hmb'⟩ := Option.isSome_iff_exists.mp hmb
  rw [mainRun, hreq]
  simp only [hov, hmr', hmb']
  by_cases hq : yTruthy ((alookup kvs (chars "query")).getD .null)
  · rw [if_neg (by simp [hq])]
    by_cases hsf : yTruthy ((alookup kvs (chars "secrets_file")).getD .null)
    · rw [if_pos hsf]
      rcases hsv : (alookup kvs (chars "secrets_file")).getD .null with s | n | b | _ | l | mm
      · cases hload : loadSecretsFromYaml w.fileExists w.yamlParsed w.env fuel with
        | error e => simp only [hload]; exact shapeOK_errObj e
        | ok store => simp only [hload]; exact shapeOK_runEngine w fuel _ _ store true _ mr mb
      all_goals exact shapeOK_errObj _
    · rw [if_neg hsf]
      exact shapeOK_runEngine w fuel _ _ [] false _ mr mb
  · rw [if_pos (by simp [hq])]
    exact shapeOK_errObj _

/-- World for the C3 (amended) witness: a plain request, no options, engine
returns one row, markdown default format. -/
def c3WitnessWorld : World :=
  ⟨.ok (.obj [(chars "query", .str (chars "SELECT 1"))]), false, .ok none, [],
   fun _ => .ok ⟨[chars "n"], [chars "Int64"], [[YVal.int 7]]⟩,
   fun _ _ => chars "table", fun _ _ => chars "csv", fun _ _ => 5⟩

/-- Witness for C3 (amended) at a concrete world. -/
theorem c3_error_envelope_amended_witness : ShapeOK (mainRun c3WitnessWorld 3).1 :=
  c3_error_envelope_amended c3WitnessWorld 3
    [(chars "query", .str (chars "SELECT 1"))] [] (by rfl) (by rfl) (by rfl) (by rfl)

/-- C6: environment-variable substitution is all-or-nothing and happens
before the engine is touched.  If any placeholder anywhere in the credential
document references an unset variable, the load fails (no store is
returned), and the invocation prints an error-only envelope with an empty
engine-event trace: no secret registration, no source registration, no
query execution. -/
theorem c6_env_substitution_all_or_nothing (w : World) (fuel : Nat)
    (kvs okvs : List (Str × YVal)) (doc : YVal) (f : Str)
    (hreq : w.parsedInput = .ok (.obj kvs))
    (hq : yTruthy ((alookup kvs (chars "query")).getD .null) = true)
    (hov : (alookup kvs (chars "options")).getD (.obj []) = .obj okvs)
    (hmr : (pyInt ((alookup okvs (chars "max_rows")).getD (.int 200))).isSome = true)
    (hmb : (pyInt ((alookup okvs (chars "max_bytes")).getD (.int 200000))).isSome = true)
    (hsv : (alookup kvs (chars "secrets_file")).getD .null = .str f)
    (hf : f ≠ [])
    (hfe : w.fileExists = true)
    (hyaml : w.yamlParsed = .ok (some doc))
    (hunset : HasUnset w.env doc) :
    isErr (loadSecretsFromYaml w.fileExists w.yamlParsed w.env fuel) = true ∧
    ∃ msg, mainRun w fuel = (.printedJson (errObj msg), []) := by
  obtain ⟨mr, hmr'⟩ := Option.isSome_iff_exists.mp hmr
  obtain ⟨mb, hmb'⟩ := Option.isSome_iff_exists.mp hmb
  have hexp := expandYF_err w.env hunset fuel
  have hload : isErr (loadSecretsFromYaml w.fileExists w.yamlParsed w.env fuel) = true := by
    rw [hfe, hyaml]
    cases hx : expandYF w.env fuel doc with
    | error e => simp [loadSecretsFromYaml, hx, isErr]
    | ok v => rw [hx] at hexp; simp [isErr] at hexp
  refine ⟨hload, ?_⟩
  rw [mainRun, hreq]
  simp only [hov, hmr', hmb', hsv]
  rw [if_neg (by simp [hq])]
  rw [if_pos (show yTruthy (.str f) = true by simp [yTruthy, hf])]
  cases hload2 : loadSecretsFromYaml w.fileExists w.yamlParsed w.env fuel with
  | error e =>
      refine ⟨e, ?_⟩
      simp [hload2]
  | ok store =>
      rw [hload2] at hload
      simp [isErr] at hload

/-- World for the C6 witness: a credential file whose postgres password
references the unset variable `DB_PASS`. -/
def c6WitnessWorld : World :=
  ⟨.ok (.obj [(chars "query", .str (chars "SELECT 1")),
     (chars "secrets_file", .str (chars "secrets.yaml"))]),
   true,
   .ok (some (.obj [(chars "secrets", .obj [(chars "pg", .obj [
      (chars "type", .str (chars "postgres")),
      (chars "host", .str (chars "h")),
      (chars "user", .str (chars "u")),
      (chars "password", .str (chars "$\x7bDB_PASS\x7d")),
      (chars "database", .str (chars "d"))])])])),
   [],
   fun _ => .ok ⟨[], [], []⟩, fun _ _ => [], fun _ _ => [], fun _ _ => 0⟩

theorem c6DocUnset :
    HasUnset []
      (.obj [(chars "secrets", .obj [(chars "pg", .obj [
        (chars "type", .str (chars "postgres")),
        (chars "host", .str (chars "h")),
        (chars "user", .str (chars "u")),
        (chars "password", .str (chars "$\x7bDB_PASS\x7d")),
        (chars "database", .str (chars "d"))])])]) := by
  apply HasUnset.obj (List.mem_singleton.mpr rfl)
  apply HasUnset.obj (List.mem_singleton.mpr rfl)
  apply HasUnset.obj
    (show (chars "password", YVal.str (chars "$\x7bDB_PASS\x7d")) ∈ _ by simp)
  exact HasUnset.str (by rfl)

/-- Witness for C6 at the concrete unset-variable world. -/
theorem c6_env_substitution_all_or_nothing_witness :
    isErr (loadSecretsFromYaml c6WitnessWorld.fileExists c6WitnessWorld.yamlParsed
      c6WitnessWorld.env 4) = true ∧
    ∃ msg, mainRun c6WitnessWorld 4 = (.printedJson (errObj msg), []) :=
  c6_env_substitution_all_or_nothing c6WitnessWorld 4
    [(chars "query", .str (chars "SELECT 1")),
     (chars "secrets_file", .str (chars "secrets.yaml"))] []
    (.obj [(chars "secrets", .obj [(chars "pg", .obj [
      (chars "type", .str (chars "postgres")),
      (chars "host", .str (chars "h")),
      (chars "user", .str (chars "u")),
      (chars "password", .str (chars "$\x7bDB_PASS\x7d")),
      (chars "database", .str (chars "d"))])])])
    (chars "secrets.yaml")
    (by rfl) (by rfl) (by rfl) (by rfl) (by rfl) (by rfl) (by decide) (by rfl) (by rfl)
    c6DocUnset

/-- C7 (amended): the byte-budget shrink loop applies to the three
JSON-emitting formats (json, records, csv) whenever the serialized envelope
exceeds max_bytes, appending the advisory warning once; the markdown format
returns the rendered table before the byte-budget check and its output does
not depend on max_bytes at all. -/
theorem c7_byte_budget_amended (fmt : Format) (qr : QueryResult)
    (rmd rcsv : List Str → List Row → Str) (el : List Row → Bool → Nat)
    (mb mb' : Int) (df : List Row) (t : Bool) (fuel : Nat)
    (hfmt : fmt ≠ .markdown)
    (hover : (el df t : Int) > mb) :
    formatStage fmt qr rmd rcsv el mb df t fuel =
      (match shrinkLoop el mb fuel df t with
       | none => .hang
       | some p =>
           .printedJson (envelopeObj fmt qr (rcsv qr.cols p.1) p.1 p.2
             [advisoryWarning])) ∧
    formatStage .markdown qr rmd rcsv el mb df t fuel =
      formatStage .markdown qr rmd rcsv el mb' df t fuel := by
  constructor
  · cases fmt with
    | markdown => exact absurd rfl hfmt
    | json =>
        simp only [formatStage]
        rw [if_pos hover]
        cases shrinkLoop el mb fuel df t with
        | none => rfl
        | some p => rfl
    | records =>
        simp only [formatStage]
        rw [if_pos hover]
        cases shrinkLoop el mb fuel df t with
        | none => rfl
        | some p => rfl
    | csv =>
        simp only [formatStage]
        rw [if_pos hover]
        cases shrinkLoop el mb fuel df t with
        | none => rfl
        | some p => rfl
  · rfl

/-- Witness for C7 (amended): a 2-row json result at 70 encoded bytes
against a 60-byte budget shrinks to 1 row (40 bytes) and emits the advisory
warning. -/
theorem c7_byte_budget_amended_witness :
    formatStage .json ⟨[chars "n"], [chars "Int64"], [[YVal.int 1], [YVal.int 2]]⟩
      (fun _ _ => []) (fun _ _ => []) (fun d _ => 30 * d.length + 10) 60
      [[YVal.int 1], [YVal.int 2]] false 5 =
      (match shrinkLoop (fun d _ => 30 * d.length + 10) 60 5
          [[YVal.int 1], [YVal.int 2]] false with
       | none => MainOut.hang
       | some p =>
           MainOut.printedJson (envelopeObj .json
             ⟨[chars "n"], [chars "Int64"], [[YVal.int 1], [YVal.int 2]]⟩
             ((fun _ _ => ([] : Str)) [chars "n"] p.1) p.1 p.2
             [advisoryWarning])) ∧
    formatStage .markdown ⟨[chars "n"], [chars "Int64"], [[YVal.int 1], [YVal.int 2]]⟩
      (fun _ _ => []) (fun _ _ => []) (fun d _ => 30 * d.length + 10) 60
      [[YVal.int 1], [YVal.int 2]] false 5 =
    formatStage .markdown ⟨[chars "n"], [chars "Int64"], [[YVal.int 1], [YVal.int 2]]⟩
      (fun _ _ => []) (fun _ _ => []) (fun d _ => 30 * d.length + 10) 7
      [[YVal.int 1], [YVal.int 2]] false 5 :=
  c7_byte_budget_amended .json ⟨[chars "n"], [chars "Int64"], [[YVal.int 1], [YVal.int 2]]⟩
    (fun _ _ => []) (fun _ _ => []) (fun d _ => 30 * d.length + 10) 60 7
    [[YVal.int 1], [YVal.int 2]] false 5 (by decide) (by decide)

/-- The engine result used in the C7 counterexample. -/
def c7Qr : QueryResult := ⟨[chars "n"], [chars "Int64"], [[YVal.int 1]]⟩

/-- A rendered markdown table of 34 bytes. -/
def c7MdText : Str := chars "| n |\n| --- |\n| 1234567890123456 |"

/-- C7 counterexample: with `max_bytes = 10`, a markdown result whose
rendered table is 34 bytes (and whose JSON encoding would be 999 bytes) is
printed in full: the markdown branch returns before the byte-budget check,
so no shrink loop runs and no warning is appended — refuting the claim that
all four formats are subject to max_bytes. -/
theorem c7_counterexample :
    formatStage .markdown c7Qr (fun _ _ => c7MdText) (fun _ _ => [])
      (fun _ _ => 999) 10 [[YVal.int 1]] false 5 = .printed c7MdText ∧
    10 < byteLen c7MdText ∧ ((999 : Int) > 10) :=
  ⟨rfl, by decide, by decide⟩

end DuckQ
